import Mathlib

/-!
# goinsta `media.go`: pagination and ambiguous-field decoding

A shallow embedding of the pagination state machines (`FeedMedia.Next`,
`StoryMedia.Next`), the back-reference pass (`setToItem`, `setValues`), the
ambiguous-field accessors (`Item.TopLikers`, `Item.PreviewComments`) and the
selector `GetBest` of `media.go`, together with the theorems that settle the
specification's claims about them.

Conventions of the embedding.

* A Go `interface{}` value is a `Dyn`: its dynamic type is the constructor.
* A Go `error` is an `Option Err`; `none` is the nil error.
* A pointer is the address it holds. `*Instagram` and the receiver pointers
  `*FeedMedia` / `*StoryMedia` are natural numbers, a nilable pointer an
  `Option`.
* The session behind `media.inst` is passed to `Next` as the value `insta` and
  returned updated: it records every call made through it.
* Library calls (`encoding/json`, `strconv`, `fmt`) are modelled after their
  documentation; `fmt.Sprintf` is a parameter.
-/

namespace Goinsta

/-! ## JSON documents and Go dynamic values -/

/-- A JSON document. A number keeps its literal text. -/
inductive JSON where
  | null
  | bool (b : Bool)
  | num (lit : String)
  | str (s : String)
  | arr (xs : List JSON)
  | obj (kvs : List (String × JSON))

/-- The dynamic values a Go `interface{}` holds in `media.go`: the constructor
is the dynamic type. `strings` is `[]string`, `slice` is `[]interface{}`,
`map` is `map[string]interface{}`, `Number` is `json.Number`, `float64` keeps
the literal the number was read from. -/
inductive Dyn where
  | nil
  | bool (b : Bool)
  | int (n : Int)
  | int64 (n : Int)
  | float64 (lit : String)
  | Number (lit : String)
  | string (s : String)
  | strings (xs : List String)
  | slice (xs : List Dyn)
  | map (kvs : List (String × Dyn))

mutual
/-- What `encoding/json` stores into an `interface{}` target: null gives nil,
a boolean a `bool`, a number a `float64` (a `json.Number` after `UseNumber`),
a string a `string`, an array a `[]interface{}`, an object a
`map[string]interface{}`. -/
def unmarshalInterface (useNumber : Bool) : JSON → Dyn
  | .null => .nil
  | .bool b => .bool b
  | .num lit => if useNumber then .Number lit else .float64 lit
  | .str s => .string s
  | .arr xs => .slice (unmarshalInterfaceList useNumber xs)
  | .obj kvs => .map (unmarshalInterfaceFields useNumber kvs)
/-- The elementwise decode of a JSON array. -/
def unmarshalInterfaceList (useNumber : Bool) : List JSON → List Dyn
  | [] => []
  | x :: xs => unmarshalInterface useNumber x :: unmarshalInterfaceList useNumber xs
/-- The memberwise decode of a JSON object. -/
def unmarshalInterfaceFields (useNumber : Bool) : List (String × JSON) → List (String × Dyn)
  | [] => []
  | (k, v) :: kvs => (k, unmarshalInterface useNumber v) :: unmarshalInterfaceFields useNumber kvs
end

mutual
/-- The document `json.Marshal` writes for a dynamic value (the inverse
reading of `unmarshalInterface`; a `[]string` is written as an array of
strings and an integer as its decimal text). -/
def marshalValue : Dyn → JSON
  | .nil => .null
  | .bool b => .bool b
  | .int n => .num (toString n)
  | .int64 n => .num (toString n)
  | .float64 lit => .num lit
  | .Number lit => .num lit
  | .string s => .str s
  | .strings xs => .arr (xs.map JSON.str)
  | .slice xs => .arr (marshalValueList xs)
  | .map kvs => .obj (marshalValueFields kvs)
/-- The elementwise encoding of a `[]interface{}`. -/
def marshalValueList : List Dyn → List JSON
  | [] => []
  | x :: xs => marshalValue x :: marshalValueList xs
/-- The memberwise encoding of a `map[string]interface{}`. -/
def marshalValueFields : List (String × Dyn) → List (String × JSON)
  | [] => []
  | (k, v) :: kvs => (k, marshalValue v) :: marshalValueFields kvs
end

/-- Comparison `x == n` of an interface value with an untyped integer
constant: the constant takes its default type `int`, and the comparison holds
only when the dynamic type of `x` is `int` and the value is `n`. -/
def Dyn.eqInt : Dyn → Int → Bool
  | .int k, n => decide (k = n)
  | _, _ => false

/-- Whether a type switch `case interface{}` selects the value: every dynamic
type implements the empty interface, so it does unless the value is nil. -/
def Dyn.isInterface : Dyn → Bool
  | .nil => false
  | _ => true

/-- Whether a type switch `case string` selects the value. -/
def Dyn.isString : Dyn → Bool
  | .string _ => true
  | _ => false

/-- The type assertion `x.(string)`; `none` is the run-time panic. -/
def Dyn.assertString : Dyn → Option String
  | .string s => some s
  | _ => none

/-! ## Declarations that live outside `media.go` -/

/-- Modelled from the spec: the package's error values, declared outside
media.go. `ErrNoMore` is the "no more data" sentinel; every other error
(transport, decode) is an opaque value told apart by its message. -/
inductive Err where
  | ErrNoMore
  | other (msg : String)
deriving DecidableEq, Repr

/-- Modelled from the spec: the `User` record, declared outside media.go.
media.go writes only its unexported session pointer `inst`; `ID` and
`Username` stand for the decoded author identity. -/
structure User where
  inst : Option Nat
  ID : Int
  Username : String
deriving DecidableEq, Repr

/-- Modelled from the spec: the comment record `Comment`, declared outside
media.go. media.go names only its `Text` field; `other` lists what a
structured decode stored in the remaining fields and is empty when they all
hold their zero value. -/
structure Comment where
  Text : String
  other : List (String × String)
deriving DecidableEq, Repr

/-- Modelled from the spec: the comment-thread handle `*Comments` that
`newComments(item)` builds, declared outside media.go: a fresh handle has
fetched nothing yet. -/
structure Comments where
  fetched : List Comment
deriving DecidableEq, Repr

/-- Modelled from the spec: `newComments(item)`, declared outside media.go,
returns a freshly constructed, empty comment-thread handle. -/
def newComments : Comments := { fetched := [] }

/-- Modelled from the spec: an image rendition `Candidate` (width, height,
url), declared outside media.go. -/
structure Candidate where
  Width : Int
  Height : Int
  URL : String
deriving DecidableEq, Repr

/-- Modelled from the spec: a video rendition `Video` (width, height, url),
declared outside media.go. -/
structure Video where
  Width : Int
  Height : Int
  URL : String
deriving DecidableEq, Repr

/-- The library function `strconv.ParseBool`: it accepts exactly 1, t, T, TRUE,
true, True, 0, f, F, FALSE, false, False. -/
def ParseBool (s : String) : Except Err Bool :=
  if s ∈ ["1", "t", "T", "TRUE", "true", "True"] then .ok true
  else if s ∈ ["0", "f", "F", "FALSE", "false", "False"] then .ok false
  else .error (.other "strconv.ParseBool: invalid syntax")

/-- The library function `strconv.FormatInt(n, 10)`. -/
def FormatInt (n : Int) : String := toString n

/-- The library function `json.Marshal`: it never fails on the values of
`Dyn` (it fails on channels, functions, cyclic or non-finite values only). -/
def Marshal (v : Dyn) : Except Err JSON := .ok (marshalValue v)

/-- The library call `json.Unmarshal(buf, comment)` into a zero `Comment`, as
encoding/json treats a struct target: an object is decoded
member by member (`fields`, a parameter because the declaration of `Comment`
is outside media.go), `null` leaves the target as it is, and every other
document is rejected. -/
def unmarshalComment (fields : List (String × JSON) → Except Err Comment) :
    JSON → Except Err Comment
  | .obj kvs => fields kvs
  | .null => .ok { Text := "", other := [] }
  | _ => .error (.other "json: cannot unmarshal into Go value of type goinsta.Comment")

/-! ## The data model of `media.go` -/

/-- A value of the interface `Media`: nil, or a pointer to one of the two
implementations. -/
inductive Media where
  | nil
  | StoryMedia (ptr : Nat)
  | FeedMedia (ptr : Nat)
deriving DecidableEq, Repr

/-- The record `Item`. The two unexported or untagged fields (`media`,
`Comments`) are the back-references; the others are wire fields. The flat
wire fields that no function of the model reads or writes are represented by
`TakenAt`, `Pk`, `ID`, `MediaType`, `Code`, `Likes`, `CommentCount` and
`Audience`; `Images` is `Images.Versions`. -/
structure Item where
  media : Media
  Comments : Option Comments
  TakenAt : Int
  Pk : Int
  ID : String
  MediaType : Int
  Code : String
  CarouselMedia : List Item
  User : User
  Likes : Int
  Toplikers : Dyn
  Previewcomments : Dyn
  CommentCount : Int
  Images : List Candidate
  Videos : List Video
  Audience : String

/-! ## Back-reference attachment -/

mutual
/-- The body of the carousel loop of `setToItem`, for one child:
`child.User = user; setToItem(&child, media)`. The callee stores `media`, sets
`User.inst = media.instagram()` (passed as `inst`), builds a new comment
handle and runs the same loop over the child's own carousel with the child's
(just assigned) user. -/
def setToItemAs (user : User) (media : Media) (inst : Option Nat) : Item → Item
  | ⟨_, _, takenAt, pk, id, mediaType, code, carousel, _, likes, toplikers, previewcomments,
      commentCount, images, videos, audience⟩ =>
    ⟨media, some newComments, takenAt, pk, id, mediaType, code,
      setToCarousel { user with inst := inst } media inst carousel,
      { user with inst := inst }, likes, toplikers, previewcomments, commentCount, images,
      videos, audience⟩
/-- The carousel loop of `setToItem`: `for i := range item.CarouselMedia`. -/
def setToCarousel (user : User) (media : Media) (inst : Option Nat) : List Item → List Item
  | [] => []
  | c :: cs => setToItemAs user media inst c :: setToCarousel user media inst cs
end

/-- The function `setToItem(item, media)`; `inst` is `media.instagram()`. -/
def setToItem (item : Item) (media : Media) (inst : Option Nat) : Item :=
  setToItemAs item.User media inst item

/-! ## Ambiguous-field accessors -/

/-- The method `Item.TopLikers`. A nil slice and an empty slice are both the
empty list. -/
def Item.TopLikers (item : Item) : List String :=
  match item.Toplikers with
  | .string s => [s]
  | .strings s => s
  | _ => []

/-- The loop of the `case interface{}` branch of `Item.PreviewComments`: each
element is marshalled and unmarshalled into a `Comment`; the first failure
returns nil. -/
def previewDecodeLoop (fields : List (String × JSON) → Except Err Comment) :
    List Dyn → List Comment → List Comment
  | [], comments => comments
  | x :: xs, comments =>
    match Marshal x with
    | .error _ => []
    | .ok buf =>
      match unmarshalComment fields buf with
      | .error _ => []
      | .ok comment => previewDecodeLoop fields xs (comments ++ [comment])

/-- The loop of the `case string` branch of `Item.PreviewComments`; `none` is
the panic of a failed type assertion `s[i].(string)`. -/
def previewStringLoop : List Dyn → List Comment → Option (List Comment)
  | [], comments => some comments
  | x :: xs, comments =>
    match x.assertString with
    | none => none
    | some text => previewStringLoop xs (comments ++ [{ Text := text, other := [] }])

/-- The method `Item.PreviewComments`; `none` is a run-time panic. The inner
type switch tests its cases in source order: `case interface{}` first, then
`case string`. A nil slice and an empty slice are both the empty list. -/
def Item.PreviewComments (fields : List (String × JSON) → Except Err Comment)
    (item : Item) : Option (List Comment) :=
  match item.Previewcomments with
  | .slice s =>
    match s with
    | [] => some []
    | s0 :: _ =>
      if s0.isInterface then some (previewDecodeLoop fields s [])
      else if s0.isString then previewStringLoop s []
      else some []
  | .string s => some [{ Text := s, other := [] }]
  | _ => some []

/-! ## Best-quality selector -/

/-- The record `bestMedia`. -/
structure bestMedia where
  w : Int
  h : Int
  url : String
deriving DecidableEq, Repr

/-- The argument of `GetBest` told apart by the dynamic types its type switch
names: `[]Video`, `[]Candidate`, or any other value. -/
inductive Obj where
  | Videos (t : List Video)
  | Candidates (t : List Candidate)
  | other (v : Dyn)

/-- The function `GetBest`. Each `for ... range t` loop is a left fold over
the slice; the comparisons are on Go `int`s and involve no arithmetic. -/
def GetBest (obj : Obj) : String :=
  let m : bestMedia := { w := 0, h := 0, url := "" }
  match obj with
  | .Videos t =>
    (t.foldl (fun m video =>
      if m.w < video.Width ∧ video.Height > m.h ∧ video.URL ≠ "" then
        { w := video.Width, h := video.Height, url := video.URL }
      else m) m).url
  | .Candidates t =>
    (t.foldl (fun m image =>
      if m.w < image.Width ∧ image.Height > m.h ∧ image.URL ≠ "" then
        { w := image.Width, h := image.Height, url := image.URL }
      else m) m).url
  | .other _ => m.url

/-! ## The session collaborator -/

/-- The request record `reqOptions` (declared outside media.go), with the
fields `Next` fills in. The `Query` map is listed in source order. -/
structure reqOptions where
  Endpoint : String
  Query : List (String × String)
  IsPost : Bool
deriving DecidableEq, Repr

/-- One call made through the session. -/
inductive Call where
  | sendRequest (o : reqOptions)
  | sendSimpleRequest (uri : String)
deriving DecidableEq, Repr

/-- What decoding a response body stores into a fresh `FeedMedia`: the tagged
fields (zero when the key is absent), the raw document under `next_max_id`
when the key is present, and the value under the untagged exported field
`IsTimelineMedia` when the body carries that key. -/
structure FeedPage where
  Items : List Item
  TimelineItems : List Item
  NumResults : Int
  MoreAvailable : Bool
  AutoLoadMoreEnabled : Bool
  Status : String
  next_max_id : Option JSON
  IsTimelineMedia : Option Bool

/-- What decoding a response body stores into a fresh `StoryMedia`: the tagged
fields (zero when the key is absent) and the raw document under `id` when the
key is present. The flat fields that no function of the model reads are
represented by `LatestReelMedia`, `CanReply`, `Title`, `ReelType` and
`Status`. -/
structure StoryPage where
  id : Option JSON
  LatestReelMedia : Int
  CanReply : Bool
  Title : String
  ReelType : String
  User : User
  Items : List Item
  Status : String

/-- A response body, given by what the JSON decoder makes of it for each of
the two targets: an error (malformed or ill-typed document) or the decoded
fields. -/
structure Body where
  feed : Except Err FeedPage
  story : Except Err StoryPage

/-- The session `Instagram` (declared outside media.go) as far as `Next` uses
it: the rank token, the calls made so far (oldest first) and the transport,
which answers a call given the calls that preceded it. -/
structure Instagram where
  rankToken : String
  calls : List Call
  transport : List Call → Call → Except Err Body

/-- The session method `sendRequest(opts)`: one call through the transport. -/
def Instagram.sendRequest (insta : Instagram) (o : reqOptions) : Except Err Body × Instagram :=
  (insta.transport insta.calls (.sendRequest o),
    { insta with calls := insta.calls ++ [.sendRequest o] })

/-- The session method `sendSimpleRequest(uri)`: one call through the
transport. -/
def Instagram.sendSimpleRequest (insta : Instagram) (uri : String) :
    Except Err Body × Instagram :=
  (insta.transport insta.calls (.sendSimpleRequest uri),
    { insta with calls := insta.calls ++ [.sendSimpleRequest uri] })

/-! ## FeedMedia -/

/-- The record `FeedMedia`; `TimelineItems` holds the `MediaOrAd` of each
entry. -/
structure FeedMedia where
  inst : Option Nat
  err : Option Err
  uid : Int
  endpoint : String
  timestamp : String
  Items : List Item
  TimelineItems : List Item
  NumResults : Int
  MoreAvailable : Bool
  AutoLoadMoreEnabled : Bool
  Status : String
  NextID : Dyn
  IsTimelineMedia : Bool

/-- The composite literal `FeedMedia{IsTimelineMedia: b}`. -/
def FeedMedia.literal (b : Bool) : FeedMedia :=
  { inst := none, err := none, uid := 0, endpoint := "", timestamp := "", Items := [],
    TimelineItems := [], NumResults := 0, MoreAvailable := false,
    AutoLoadMoreEnabled := false, Status := "", NextID := .nil, IsTimelineMedia := b }

/-- The decoding `d.UseNumber(); d.Decode(&m)`: on success the exported fields
of `m` hold what the body carries; the unexported ones are not touched. -/
def FeedMedia.Decode (body : Body) (m : FeedMedia) : Except Err FeedMedia :=
  match body.feed with
  | .error e => .error e
  | .ok p =>
    .ok { m with
      Items := p.Items, TimelineItems := p.TimelineItems, NumResults := p.NumResults,
      MoreAvailable := p.MoreAvailable, AutoLoadMoreEnabled := p.AutoLoadMoreEnabled,
      Status := p.Status,
      NextID := match p.next_max_id with
        | none => m.NextID
        | some j => unmarshalInterface true j,
      IsTimelineMedia := match p.IsTimelineMedia with
        | none => m.IsTimelineMedia
        | some b => b }

/-- The method `FeedMedia.setValues`; `self` is the receiver pointer. -/
def FeedMedia.setValues (self : Nat) (media : FeedMedia) : FeedMedia :=
  { media with Items := media.Items.map (fun item => setToItem item (.FeedMedia self) media.inst) }

/-- The method `FeedMedia.Error`. -/
def FeedMedia.Error (media : FeedMedia) : Option Err := media.err

/-- The method `FeedMedia.ID`. -/
def FeedMedia.ID (media : FeedMedia) : String :=
  match media.NextID with
  | .string s => s
  | .int64 s => FormatInt s
  | .Number s => s
  | _ => ""

/-- The parameter loop of `FeedMedia.Next`: the value of `ranked` after
`for _, param := range params`. -/
def rankedContent (params : List Dyn) : String :=
  params.foldl (fun ranked param =>
    match param with
    | .string s =>
      match ParseBool s with
      | .ok _ => s
      | .error _ => ranked
    | .bool s => if !s then "false" else ranked
    | _ => ranked) "true"

/-- The method `FeedMedia.Next`. `Sprintf` is `fmt.Sprintf(endpoint, uid)`,
`self` the receiver pointer, `insta` the session `media.inst` points to. The
result is the returned boolean, the receiver afterwards and the session
afterwards. -/
def FeedMedia.Next (Sprintf : String → Int → String) (self : Nat) (insta : Instagram)
    (media : FeedMedia) (params : List Dyn) : Bool × FeedMedia × Instagram :=
  if media.err ≠ none then (false, media, insta)
  else
    let endpoint := if media.uid ≠ 0 then Sprintf media.endpoint media.uid else media.endpoint
    let next := media.ID
    let ranked := rankedContent params
    let r := insta.sendRequest
      { Endpoint := endpoint,
        Query := [("max_id", next), ("rank_token", insta.rankToken),
          ("min_timestamp", media.timestamp), ("ranked_content", ranked)],
        IsPost := media.IsTimelineMedia }
    match r.1 with
    | .error _ => (false, media, r.2)
    | .ok body =>
      match FeedMedia.Decode body (FeedMedia.literal media.IsTimelineMedia) with
      | .error _ => (false, media, r.2)
      | .ok m =>
        let media1 : FeedMedia := { m with inst := media.inst, endpoint := endpoint }
        let media2 : FeedMedia :=
          if m.NextID.eqInt 0 || !m.MoreAvailable then { media1 with err := some .ErrNoMore }
          else media1
        (true, media2.setValues self, r.2)

/-! ## StoryMedia -/

/-- The record `StoryMedia`. -/
structure StoryMedia where
  inst : Option Nat
  endpoint : String
  uid : Int
  err : Option Err
  Pk : Dyn
  LatestReelMedia : Int
  CanReply : Bool
  Title : String
  ReelType : String
  User : User
  Items : List Item
  Status : String

/-- The composite literal `StoryMedia{}`. -/
def StoryMedia.literal : StoryMedia :=
  { inst := none, endpoint := "", uid := 0, err := none, Pk := .nil, LatestReelMedia := 0,
    CanReply := false, Title := "", ReelType := "",
    User := { inst := none, ID := 0, Username := "" }, Items := [], Status := "" }

/-- The decoding `json.Unmarshal(body, &m)`: on success the exported fields of
`m` hold what the body carries; the unexported ones are not touched. -/
def StoryMedia.Unmarshal (body : Body) (m : StoryMedia) : Except Err StoryMedia :=
  match body.story with
  | .error e => .error e
  | .ok p =>
    .ok { m with
      Pk := match p.id with
        | none => m.Pk
        | some j => unmarshalInterface false j,
      LatestReelMedia := p.LatestReelMedia, CanReply := p.CanReply, Title := p.Title,
      ReelType := p.ReelType, User := p.User, Items := p.Items, Status := p.Status }

/-- The method `StoryMedia.setValues`; `self` is the receiver pointer. -/
def StoryMedia.setValues (self : Nat) (media : StoryMedia) : StoryMedia :=
  { media with
    Items := media.Items.map (fun item => setToItem item (.StoryMedia self) media.inst) }

/-- The method `StoryMedia.Error`. -/
def StoryMedia.Error (media : StoryMedia) : Option Err := media.err

/-- The method `StoryMedia.Next`. `Sprintf` is `fmt.Sprintf(endpoint, uid)`,
`self` the receiver pointer, `insta` the session `media.inst` points to. The
result is the returned boolean, the receiver afterwards and the session
afterwards. -/
def StoryMedia.Next (Sprintf : String → Int → String) (self : Nat) (insta : Instagram)
    (media : StoryMedia) (_params : List Dyn) : Bool × StoryMedia × Instagram :=
  if media.err ≠ none then (false, media, insta)
  else
    let endpoint := if media.uid ≠ 0 then Sprintf media.endpoint media.uid else media.endpoint
    let r := insta.sendSimpleRequest endpoint
    match r.1 with
    | .error err => (false, { media with err := some err }, r.2)
    | .ok body =>
      match StoryMedia.Unmarshal body StoryMedia.literal with
      | .error err => (false, { media with err := some err }, r.2)
      | .ok m =>
        let media1 : StoryMedia :=
          { m with inst := media.inst, endpoint := endpoint, err := some .ErrNoMore }
        (true, media1.setValues self, r.2)

/-! ## Sample values -/

/-- An item with every field at its zero value. -/
def Item.zero : Item :=
  { media := .nil, Comments := none, TakenAt := 0, Pk := 0, ID := "", MediaType := 0,
    Code := "", CarouselMedia := [], User := { inst := none, ID := 0, Username := "" },
    Likes := 0, Toplikers := .nil, Previewcomments := .nil, CommentCount := 0, Images := [],
    Videos := [], Audience := "" }

/-- The request that `FeedMedia.Next` builds on a live feed. -/
def FeedMedia.request (Sprintf : String → Int → String) (insta : Instagram) (media : FeedMedia)
    (params : List Dyn) : reqOptions :=
  { Endpoint := if media.uid ≠ 0 then Sprintf media.endpoint media.uid else media.endpoint,
    Query := [("max_id", media.ID), ("rank_token", insta.rankToken),
      ("min_timestamp", media.timestamp), ("ranked_content", rankedContent params)],
    IsPost := media.IsTimelineMedia }

/-- The state a successful `FeedMedia.Next` leaves, before `setValues`. -/
def FeedMedia.advanced (endpoint : String) (media : FeedMedia) (p : FeedPage) : FeedMedia :=
  { inst := media.inst,
    err := if p.MoreAvailable then none else some .ErrNoMore,
    uid := 0, endpoint := endpoint, timestamp := "", Items := p.Items,
    TimelineItems := p.TimelineItems, NumResults := p.NumResults,
    MoreAvailable := p.MoreAvailable, AutoLoadMoreEnabled := p.AutoLoadMoreEnabled,
    Status := p.Status,
    NextID := match p.next_max_id with
      | none => .nil
      | some j => unmarshalInterface true j,
    IsTimelineMedia := match p.IsTimelineMedia with
      | none => media.IsTimelineMedia
      | some b => b }

/-- The state a successful `StoryMedia.Next` leaves, before `setValues`. -/
def StoryMedia.resynced (endpoint : String) (media : StoryMedia) (p : StoryPage) : StoryMedia :=
  { inst := media.inst, endpoint := endpoint, uid := 0, err := some .ErrNoMore,
    Pk := match p.id with
      | none => .nil
      | some j => unmarshalInterface false j,
    LatestReelMedia := p.LatestReelMedia, CanReply := p.CanReply, Title := p.Title,
    ReelType := p.ReelType, User := p.User, Items := p.Items, Status := p.Status }

/-- The endpoint that `StoryMedia.Next` requests on a live tray. -/
def StoryMedia.requestURI (Sprintf : String → Int → String) (media : StoryMedia) : String :=
  if media.uid ≠ 0 then Sprintf media.endpoint media.uid else media.endpoint

/-- A formatter that leaves the endpoint as it is (a template without verb). -/
def plainSprintf (format : String) (_uid : Int) : String := format

/-- A feed page with one item, `more_available` true and the given
`next_max_id`. -/
def cursorPage (c : Option JSON) : FeedPage :=
  { Items := [Item.zero], TimelineItems := [], NumResults := 1, MoreAvailable := true,
    AutoLoadMoreEnabled := false, Status := "ok", next_max_id := c, IsTimelineMedia := none }

/-- A story page with one item. -/
def trayPage : StoryPage :=
  { id := some (.str "7"), LatestReelMedia := 0, CanReply := true, Title := "", ReelType := "",
    User := { inst := none, ID := 7, Username := "u" }, Items := [Item.zero], Status := "ok" }

/-- A body that decodes for both targets. -/
def cursorBody (c : Option JSON) : Body := { feed := .ok (cursorPage c), story := .ok trayPage }

/-- A body that the decoder rejects with `e`. -/
def malformedBody (e : Err) : Body := { feed := .error e, story := .error e }

/-- A session whose transport always answers with `cursorBody c`. -/
def cursorSession (c : Option JSON) : Instagram :=
  { rankToken := "rank", calls := [], transport := fun _ _ => .ok (cursorBody c) }

/-- A session whose transport fails with `e` on its first call and answers
with a decodable page afterwards. -/
def flakySession (e : Err) : Instagram :=
  { rankToken := "rank", calls := [],
    transport := fun calls _ =>
      match calls with
      | [] => .error e
      | _ :: _ => .ok (cursorBody none) }

/-- A session whose first answer is a body the decoder rejects with `e`, and
whose later answers decode. -/
def garbledSession (e : Err) : Instagram :=
  { rankToken := "rank", calls := [],
    transport := fun calls _ =>
      match calls with
      | [] => .ok (malformedBody e)
      | _ :: _ => .ok (cursorBody none) }

/-- A live feed bound to the session at address 1. -/
def liveFeed : FeedMedia :=
  { FeedMedia.literal false with inst := some 1, endpoint := "feed/timeline/" }

/-- A live story tray bound to the session at address 1. -/
def liveTray : StoryMedia :=
  { StoryMedia.literal with inst := some 1, endpoint := "feed/reels_tray/" }

/-- A feed that has reached the end of its collection. -/
def exhaustedFeed : FeedMedia := { liveFeed with err := some .ErrNoMore }

/-- A story tray that has recorded a transport error. -/
def failedTray : StoryMedia := { liveTray with err := some (.other "timeout") }

/-! ## Definitions used by the statements -/

/-- The structured decode of one element in the `case interface{}` loop of
`Item.PreviewComments`: `json.Marshal(s[i])`, then `json.Unmarshal(buf,
comment)`. -/
def structuredDecode (fields : List (String × JSON) → Except Err Comment) (x : Dyn) :
    Except Err Comment :=
  match Marshal x with
  | .error e => .error e
  | .ok buf => unmarshalComment fields buf

/-- A field decoder for `Comment` that reads only the member `text`: a string
is stored, an absent or null member leaves the zero value, anything else is a
type error. -/
def textOnly (kvs : List (String × JSON)) : Except Err Comment :=
  match kvs.lookup "text" with
  | some (.str s) => .ok { Text := s, other := [] }
  | some .null => .ok { Text := "", other := [] }
  | none => .ok { Text := "", other := [] }
  | some _ => .error (.other "json: cannot unmarshal into Go struct field Comment.text")

/-- The replacement test of the specification's running scan on (width,
height, url) triples: the candidate's width is strictly greater than the best
width, its height strictly greater than the best height, and its URL is not
empty. -/
def replaces (best cand : Int × Int × String) : Bool :=
  decide (best.1 < cand.1) && decide (best.2.1 < cand.2.1) && decide (cand.2.2 ≠ "")

/-- The running best-so-far scan of the specification: the state reached from
`best` by going through the candidates left to right, a candidate taking the
place of the current best exactly when it `replaces` it. -/
def scanBest : Int × Int × String → List (Int × Int × String) → Int × Int × String
  | best, [] => best
  | best, cand :: cands => scanBest (if replaces best cand then cand else best) cands

/-- The (width, height, url) triple of a `bestMedia`. -/
def bestMedia.triple (r : bestMedia) : Int × Int × String := (r.w, r.h, r.url)

/-- The three candidates of the specification's example. -/
def exampleTriples : List (Int × Int × String) := [(100, 50, "u1"), (200, 80, "u2"), (150, 90, "")]

/-- Two renditions of which the second is narrower but of far greater area. -/
def tallNarrow : List Candidate :=
  [{ Width := 200, Height := 80, URL := "a" }, { Width := 150, Height := 900, URL := "b" }]

/-- A single rendition with a URL but width zero. -/
def zeroWidth : List Candidate := [{ Width := 0, Height := 5, URL := "x" }]

mutual
/-- The item itself followed by its carousel descendants at every nesting
depth, in preorder. -/
def Item.descendants : Item → List Item
  | item@⟨_, _, _, _, _, _, _, carousel, _, _, _, _, _, _, _, _⟩ =>
    item :: descendantsOf carousel
/-- The descendants of every item of a list. -/
def descendantsOf : List Item → List Item
  | [] => []
  | c :: cs => c.descendants ++ descendantsOf cs
end

/-- The wire fields of an item other than `User` and the carousel children
themselves, with the number of carousel children. -/
def Item.flat (item : Item) :
    Int × Int × String × Int × String × Int × Dyn × Dyn × Int × List Candidate × List Video ×
      String × Nat :=
  (item.TakenAt, item.Pk, item.ID, item.MediaType, item.Code, item.Likes, item.Toplikers,
    item.Previewcomments, item.CommentCount, item.Images, item.Videos, item.Audience,
    item.CarouselMedia.length)

/-- The text `fmt.Sprintf(format, uid)` writes for one int64 operand, on the
characters of a format whose only verbs are `%d` and `%%`: the first `%d` is
the decimal text of the operand, a later one has no operand left, and an
operand that no verb consumed is reported at the end. `used` tells whether the
operand has been consumed. -/
def sprintfChars (uid : Int) : Bool → List Char → List Char
  | used, [] =>
    if used then [] else "%!(EXTRA int64=".toList ++ (FormatInt uid).toList ++ ")".toList
  | used, '%' :: 'd' :: cs =>
    (if used then "%!d(MISSING)".toList else (FormatInt uid).toList) ++ sprintfChars uid true cs
  | used, '%' :: '%' :: cs => '%' :: sprintfChars uid used cs
  | used, c :: cs => c :: sprintfChars uid used cs

/-- A formatter for endpoint templates written with `%d`. -/
def decimalSprintf (format : String) (uid : Int) : String :=
  String.mk (sprintfChars uid false format.toList)

/-- A live feed bound to the owner id 5 through an endpoint template. -/
def userFeed : FeedMedia :=
  { FeedMedia.literal false with inst := some 1, uid := 5, endpoint := "feed/user/%d/" }

/-- A run of `FeedMedia.Next` calls on one feed, one argument list per call:
each call works on the receiver and the session the previous one left. The
result is the receiver and the session after the last call. -/
def FeedMedia.run (Sprintf : String → Int → String) (self : Nat) :
    Instagram → FeedMedia → List (List Dyn) → FeedMedia × Instagram
  | insta, media, [] => (media, insta)
  | insta, media, params :: rest =>
    FeedMedia.run Sprintf self (FeedMedia.Next Sprintf self insta media params).2.2
      (FeedMedia.Next Sprintf self insta media params).2.1 rest

/-- A session whose transport always answers with a page that carries the
cursor "QVFE" and `more_available` false. -/
def closingSession : Instagram :=
  { rankToken := "rank", calls := [],
    transport := fun _ _ =>
      .ok { feed := .ok { cursorPage (some (.str "QVFE")) with MoreAvailable := false },
            story := .ok trayPage } }

/-! ## Lemmas on decoding -/

theorem unmarshalInterfaceList_strs (useNumber : Bool) (xs : List String) :
    unmarshalInterfaceList useNumber (xs.map JSON.str) = xs.map Dyn.string := by
  induction xs with
  | nil => simp [unmarshalInterfaceList]
  | cons x xs ih => simp [unmarshalInterfaceList, unmarshalInterface, ih]

theorem unmarshalInterface_strs (useNumber : Bool) (xs : List String) :
    unmarshalInterface useNumber (.arr (xs.map JSON.str)) = .slice (xs.map Dyn.string) := by
  simp [unmarshalInterface, unmarshalInterfaceList_strs]

/-! ## TopLikers -/

/-- C7. `Item.TopLikers` is a total function of the dynamic value held in
`Toplikers`: a string `s` gives `[s]`, a `[]string` gives itself, and each of
the other shapes (nil, bool, int, int64, float64, json.Number, a generic
array, an object) gives the empty sequence. -/
theorem TopLikers_rule (item : Item) :
    (∀ s, ({ item with Toplikers := .string s }).TopLikers = [s]) ∧
    (∀ xs, ({ item with Toplikers := .strings xs }).TopLikers = xs) ∧
    ({ item with Toplikers := .nil }).TopLikers = [] ∧
    (∀ b, ({ item with Toplikers := .bool b }).TopLikers = []) ∧
    (∀ n, ({ item with Toplikers := .int n }).TopLikers = []) ∧
    (∀ n, ({ item with Toplikers := .int64 n }).TopLikers = []) ∧
    (∀ lit, ({ item with Toplikers := .float64 lit }).TopLikers = []) ∧
    (∀ lit, ({ item with Toplikers := .Number lit }).TopLikers = []) ∧
    (∀ xs, ({ item with Toplikers := .slice xs }).TopLikers = []) ∧
    (∀ kvs, ({ item with Toplikers := .map kvs }).TopLikers = []) := by
  refine ⟨?_, ?_, ?_, ?_, ?_, ?_, ?_, ?_, ?_, ?_⟩ <;> intros <;> rfl

/-- C8 (the code at the failing input). An item whose `top_likers` was decoded
from a JSON array of strings holds a `[]interface{}`, which `Item.TopLikers`
does not recognise: the result is empty for every such array, in particular
for `["a","b"]`. -/
theorem TopLikers_decoded_array (useNumber : Bool) (item : Item) (xs : List String) :
    ({ item with
        Toplikers := unmarshalInterface useNumber (.arr (xs.map JSON.str)) }).TopLikers = [] ∧
    ({ item with
        Toplikers := unmarshalInterface useNumber (.arr [.str "a", .str "b"]) }).TopLikers
      ≠ ["a", "b"] := by
  constructor
  · rw [unmarshalInterface_strs]; rfl
  · have h := unmarshalInterface_strs useNumber ["a", "b"]
    simp only [List.map] at h
    rw [h]
    simp [Item.TopLikers]

/-! ## PreviewComments -/

/-- C9. `Item.PreviewComments` on a bare string `s` returns exactly one
`Comment`, whose `Text` is `s` and whose other fields are zero. -/
theorem PreviewComments_string (fields : List (String × JSON) → Except Err Comment)
    (item : Item) (s : String) :
    ({ item with Previewcomments := .string s }).PreviewComments fields
      = some [{ Text := s, other := [] }] := by
  rfl

/-- C10 (the code at the failing input). For a non-empty JSON array of strings
as the decoder stores it, the inner type switch of `Item.PreviewComments`
takes `case interface{}`, the structured decode of the first string fails and
the result is empty, whatever the field decoder of `Comment`; in particular
`["a","b"]` does not give the two records with text "a" and "b". -/
theorem PreviewComments_decoded_strings (fields : List (String × JSON) → Except Err Comment)
    (useNumber : Bool) (item : Item) (x : String) (xs : List String) :
    ({ item with
        Previewcomments := unmarshalInterface useNumber (.arr ((x :: xs).map JSON.str)) }
      ).PreviewComments fields = some [] ∧
    ({ item with
        Previewcomments := unmarshalInterface useNumber (.arr [.str "a", .str "b"]) }
      ).PreviewComments fields
      ≠ some [{ Text := "a", other := [] }, { Text := "b", other := [] }] := by
  constructor
  · rw [unmarshalInterface_strs]
    simp [Item.PreviewComments, Dyn.isInterface, previewDecodeLoop, Marshal, marshalValue,
      unmarshalComment]
  · have h := unmarshalInterface_strs useNumber ["a", "b"]
    simp only [List.map] at h
    rw [h]
    simp [Item.PreviewComments, Dyn.isInterface, previewDecodeLoop, Marshal, marshalValue,
      unmarshalComment]

/-! ## Lemmas on `Next` -/

theorem feedNext_terminal (Sprintf : String → Int → String) (self : Nat)
    (insta : Instagram) (media : FeedMedia) (params : List Dyn) (h : media.err ≠ none) :
    FeedMedia.Next Sprintf self insta media params = (false, media, insta) := by
  simp [FeedMedia.Next, h]

theorem storyNext_terminal (Sprintf : String → Int → String) (self : Nat)
    (insta : Instagram) (media : StoryMedia) (params : List Dyn) (h : media.err ≠ none) :
    StoryMedia.Next Sprintf self insta media params = (false, media, insta) := by
  simp [StoryMedia.Next, h]

theorem feedNext_session (Sprintf : String → Int → String) (self : Nat)
    (insta : Instagram) (media : FeedMedia) (params : List Dyn) (h : media.err = none) :
    (FeedMedia.Next Sprintf self insta media params).2.2
      = (insta.sendRequest (FeedMedia.request Sprintf insta media params)).2 := by
  simp only [FeedMedia.Next, h, FeedMedia.request]
  split
  · simp at *
  · split
    · rfl
    · split <;> rfl

theorem feedNext_transport_error (Sprintf : String → Int → String) (self : Nat)
    (insta : Instagram) (media : FeedMedia) (params : List Dyn) (e : Err)
    (h : media.err = none)
    (ht : insta.transport insta.calls (.sendRequest (FeedMedia.request Sprintf insta media params))
      = .error e) :
    FeedMedia.Next Sprintf self insta media params
      = (false, media, (insta.sendRequest (FeedMedia.request Sprintf insta media params)).2) := by
  simp only [FeedMedia.request] at ht
  simp only [FeedMedia.Next, h, ne_eq, not_true_eq_false, if_false, FeedMedia.request,
    Instagram.sendRequest, ht]

theorem feedNext_decode_error (Sprintf : String → Int → String) (self : Nat)
    (insta : Instagram) (media : FeedMedia) (params : List Dyn) (body : Body) (e : Err)
    (h : media.err = none)
    (ht : insta.transport insta.calls (.sendRequest (FeedMedia.request Sprintf insta media params))
      = .ok body)
    (hd : body.feed = .error e) :
    FeedMedia.Next Sprintf self insta media params
      = (false, media, (insta.sendRequest (FeedMedia.request Sprintf insta media params)).2) := by
  simp only [FeedMedia.request] at ht
  simp only [FeedMedia.Next, h, ne_eq, not_true_eq_false, if_false, FeedMedia.request,
    Instagram.sendRequest, ht, FeedMedia.Decode, hd]

theorem unmarshalInterface_eqInt (useNumber : Bool) (j : JSON) (n : Int) :
    (unmarshalInterface useNumber j).eqInt n = false := by
  cases j <;> cases useNumber <;> simp [unmarshalInterface, Dyn.eqInt]

theorem feedNext_page (Sprintf : String → Int → String) (self : Nat)
    (insta : Instagram) (media : FeedMedia) (params : List Dyn) (body : Body) (p : FeedPage)
    (h : media.err = none)
    (ht : insta.transport insta.calls (.sendRequest (FeedMedia.request Sprintf insta media params))
      = .ok body)
    (hd : body.feed = .ok p) :
    FeedMedia.Next Sprintf self insta media params
      = (true,
          FeedMedia.setValues self
            (FeedMedia.advanced (FeedMedia.request Sprintf insta media params).Endpoint media p),
          (insta.sendRequest (FeedMedia.request Sprintf insta media params)).2) := by
  simp only [FeedMedia.request] at ht
  simp only [FeedMedia.Next, h, ne_eq, not_true_eq_false, if_false, FeedMedia.request,
    Instagram.sendRequest, ht, FeedMedia.Decode, hd, FeedMedia.advanced, FeedMedia.literal]
  have hz : (match p.next_max_id with
      | none => Dyn.nil
      | some j => unmarshalInterface true j).eqInt 0 = false := by
    cases p.next_max_id with
    | none => rfl
    | some j => exact unmarshalInterface_eqInt true j 0
  rw [hz]
  cases p.MoreAvailable <;> simp

theorem storyNext_transport_error (Sprintf : String → Int → String) (self : Nat)
    (insta : Instagram) (media : StoryMedia) (params : List Dyn) (e : Err)
    (h : media.err = none)
    (ht : insta.transport insta.calls (.sendSimpleRequest (StoryMedia.requestURI Sprintf media))
      = .error e) :
    StoryMedia.Next Sprintf self insta media params
      = (false, { media with err := some e },
          (insta.sendSimpleRequest (StoryMedia.requestURI Sprintf media)).2) := by
  simp only [StoryMedia.requestURI] at ht
  simp only [StoryMedia.Next, h, ne_eq, not_true_eq_false, if_false, StoryMedia.requestURI,
    Instagram.sendSimpleRequest, ht]

theorem storyNext_decode_error (Sprintf : String → Int → String) (self : Nat)
    (insta : Instagram) (media : StoryMedia) (params : List Dyn) (body : Body) (e : Err)
    (h : media.err = none)
    (ht : insta.transport insta.calls (.sendSimpleRequest (StoryMedia.requestURI Sprintf media))
      = .ok body)
    (hd : body.story = .error e) :
    StoryMedia.Next Sprintf self insta media params
      = (false, { media with err := some e },
          (insta.sendSimpleRequest (StoryMedia.requestURI Sprintf media)).2) := by
  simp only [StoryMedia.requestURI] at ht
  simp only [StoryMedia.Next, h, ne_eq, not_true_eq_false, if_false, StoryMedia.requestURI,
    Instagram.sendSimpleRequest, ht, StoryMedia.Unmarshal, hd]

theorem storyNext_page (Sprintf : String → Int → String) (self : Nat)
    (insta : Instagram) (media : StoryMedia) (params : List Dyn) (body : Body) (p : StoryPage)
    (h : media.err = none)
    (ht : insta.transport insta.calls (.sendSimpleRequest (StoryMedia.requestURI Sprintf media))
      = .ok body)
    (hd : body.story = .ok p) :
    StoryMedia.Next Sprintf self insta media params
      = (true,
          StoryMedia.setValues self
            (StoryMedia.resynced (StoryMedia.requestURI Sprintf media) media p),
          (insta.sendSimpleRequest (StoryMedia.requestURI Sprintf media)).2) := by
  simp only [StoryMedia.requestURI] at ht
  simp only [StoryMedia.Next, h, ne_eq, not_true_eq_false, if_false, StoryMedia.requestURI,
    Instagram.sendSimpleRequest, ht, StoryMedia.Unmarshal, hd, StoryMedia.resynced,
    StoryMedia.literal]

/-! ## Lemmas on the back-reference pass -/

theorem setToCarousel_map (user : User) (media : Media) (inst : Option Nat) (cs : List Item) :
    setToCarousel user media inst cs = cs.map (setToItemAs user media inst) := by
  induction cs with
  | nil => simp [setToCarousel]
  | cons c cs ih => simp [setToCarousel, ih]

theorem setToItemAs_assign (user : User) (media : Media) (inst : Option Nat) (item : Item) :
    setToItemAs user media inst item = setToItem { item with User := user } media inst := by
  cases item
  simp [setToItem, setToItemAs]

/-- The embedding of `setToItem` satisfies the recursion of the source: store
`media`, set `User.inst`, build the comment handle, then for every carousel
child assign the item's user and recurse. -/
theorem setToItem_unfold (item : Item) (media : Media) (inst : Option Nat) :
    setToItem item media inst
      = { item with
          media := media,
          User := { item.User with inst := inst },
          Comments := some newComments,
          CarouselMedia := item.CarouselMedia.map (fun child =>
            setToItem { child with User := { item.User with inst := inst } } media inst) } := by
  cases item
  simp [setToItem, setToItemAs, setToCarousel_map, setToItemAs_assign]

theorem setToItem_flat (item : Item) (media : Media) (inst : Option Nat) :
    (setToItem item media inst).TakenAt = item.TakenAt ∧
    (setToItem item media inst).Pk = item.Pk ∧
    (setToItem item media inst).ID = item.ID ∧
    (setToItem item media inst).MediaType = item.MediaType ∧
    (setToItem item media inst).Code = item.Code ∧
    (setToItem item media inst).Likes = item.Likes ∧
    (setToItem item media inst).Toplikers = item.Toplikers ∧
    (setToItem item media inst).Previewcomments = item.Previewcomments ∧
    (setToItem item media inst).CommentCount = item.CommentCount ∧
    (setToItem item media inst).Images = item.Images ∧
    (setToItem item media inst).Videos = item.Videos ∧
    (setToItem item media inst).Audience = item.Audience := by
  cases item
  simp [setToItem, setToItemAs]

/-! ## Pagination -/

/-- C1 (the code at the failing input). A successfully decoded page with
`more_available` true leaves the feed live whatever its `next_max_id` is,
absent, the string "0" and the number 0 included: `Next` returns true,
`Error()` stays nil instead of `ErrNoMore`, and the following call issues a
request and returns true instead of false. -/
theorem FeedMedia_Next_zero_cursor_stays_live (c : Option JSON) :
    (FeedMedia.Next plainSprintf 1 (cursorSession c) liveFeed []).1 = true ∧
    (FeedMedia.Next plainSprintf 1 (cursorSession c) liveFeed []).2.1.Error = none ∧
    (FeedMedia.Next plainSprintf 1
      (FeedMedia.Next plainSprintf 1 (cursorSession c) liveFeed []).2.2
      (FeedMedia.Next plainSprintf 1 (cursorSession c) liveFeed []).2.1 []).1 = true := by
  have h1 := feedNext_page plainSprintf 1 (cursorSession c) liveFeed [] (cursorBody c)
    (cursorPage c) rfl rfl rfl
  rw [h1]
  refine ⟨rfl, rfl, ?_⟩
  rw [feedNext_page plainSprintf 1 _ _ [] (cursorBody c) (cursorPage c) rfl rfl rfl]

/-- C2 (the code at the failing input). When the transport fails with `e`, or
the body is rejected by the decoder with `e`, `FeedMedia.Next` returns false
but records nothing: `Error()` is still nil, and the following call issues a
request again and returns true when that one succeeds. -/
theorem FeedMedia_Next_failure_not_recorded (e : Err) :
    ((FeedMedia.Next plainSprintf 1 (flakySession e) liveFeed []).1 = false ∧
      (FeedMedia.Next plainSprintf 1 (flakySession e) liveFeed []).2.1.Error = none ∧
      (FeedMedia.Next plainSprintf 1
        (FeedMedia.Next plainSprintf 1 (flakySession e) liveFeed []).2.2
        (FeedMedia.Next plainSprintf 1 (flakySession e) liveFeed []).2.1 []).1 = true) ∧
    ((FeedMedia.Next plainSprintf 1 (garbledSession e) liveFeed []).1 = false ∧
      (FeedMedia.Next plainSprintf 1 (garbledSession e) liveFeed []).2.1.Error = none ∧
      (FeedMedia.Next plainSprintf 1
        (FeedMedia.Next plainSprintf 1 (garbledSession e) liveFeed []).2.2
        (FeedMedia.Next plainSprintf 1 (garbledSession e) liveFeed []).2.1 []).1 = true) := by
  have h1 := feedNext_transport_error plainSprintf 1 (flakySession e) liveFeed [] e rfl rfl
  have h2 := feedNext_decode_error plainSprintf 1 (garbledSession e) liveFeed []
    (malformedBody e) e rfl rfl rfl
  rw [h1, h2]
  refine ⟨⟨rfl, rfl, ?_⟩, ⟨rfl, rfl, ?_⟩⟩
  · rw [feedNext_page plainSprintf 1 _ _ [] (cursorBody none) (cursorPage none)
      rfl rfl rfl]
  · rw [feedNext_page plainSprintf 1 _ _ [] (cursorBody none) (cursorPage none)
      rfl rfl rfl]

/-- C3. Terminal states are absorbing: when the stored error is non-nil,
`FeedMedia.Next` and `StoryMedia.Next` return false for every argument list,
leave the collection exactly as it was and leave the session, hence the
record of calls made through it, exactly as it was. -/
theorem Next_terminal_absorbing (Sprintf : String → Int → String) (self : Nat)
    (insta : Instagram) (feed : FeedMedia) (story : StoryMedia) (params : List Dyn)
    (hf : feed.err ≠ none) (hs : story.err ≠ none) :
    FeedMedia.Next Sprintf self insta feed params = (false, feed, insta) ∧
    StoryMedia.Next Sprintf self insta story params = (false, story, insta) :=
  ⟨feedNext_terminal Sprintf self insta feed params hf,
    storyNext_terminal Sprintf self insta story params hs⟩

theorem Next_terminal_absorbing_witness :
    exhaustedFeed.err ≠ none ∧ failedTray.err ≠ none ∧
    FeedMedia.Next plainSprintf 1 (cursorSession none) exhaustedFeed [.bool false]
      = (false, exhaustedFeed, cursorSession none) ∧
    StoryMedia.Next plainSprintf 1 (cursorSession none) failedTray [.bool false]
      = (false, failedTray, cursorSession none) :=
  ⟨by decide, by decide,
    Next_terminal_absorbing plainSprintf 1 (cursorSession none) exhaustedFeed failedTray
      [.bool false] (by decide) (by decide)⟩

/-- C4. `StoryMedia.Next` resyncs once: on a tray with no recorded error, when
the request succeeds and the body decodes to the page `p`, `Next` returns
true, `Items` are the items of `p` (the same identities and flat wire fields)
with their back-references attached, and `Error()` is `ErrNoMore`; the
following call returns false, makes no request and leaves `Error()` at
`ErrNoMore`, whatever session it runs against. -/
theorem StoryMedia_Next_resync (Sprintf : String → Int → String) (self : Nat)
    (insta : Instagram) (media : StoryMedia) (params : List Dyn) (body : Body) (p : StoryPage)
    (hlive : media.err = none)
    (ht : insta.transport insta.calls (.sendSimpleRequest (StoryMedia.requestURI Sprintf media))
      = .ok body)
    (hd : body.story = .ok p) :
    (StoryMedia.Next Sprintf self insta media params).1 = true ∧
    (StoryMedia.Next Sprintf self insta media params).2.1.Items
      = p.Items.map (fun item => setToItem item (.StoryMedia self) media.inst) ∧
    (StoryMedia.Next Sprintf self insta media params).2.1.Items.map
        (fun item => (item.Pk, item.ID, item.Code))
      = p.Items.map (fun item => (item.Pk, item.ID, item.Code)) ∧
    (StoryMedia.Next Sprintf self insta media params).2.1.Error = some .ErrNoMore ∧
    ∀ (Sprintf2 : String → Int → String) (self2 : Nat) (insta2 : Instagram)
      (params2 : List Dyn),
      StoryMedia.Next Sprintf2 self2 insta2
          (StoryMedia.Next Sprintf self insta media params).2.1 params2
        = (false, (StoryMedia.Next Sprintf self insta media params).2.1, insta2) ∧
      (StoryMedia.Next Sprintf2 self2 insta2
          (StoryMedia.Next Sprintf self insta media params).2.1 params2).2.1.Error
        = some .ErrNoMore := by
  rw [storyNext_page Sprintf self insta media params body p hlive ht hd]
  have herr : (StoryMedia.setValues self
      (StoryMedia.resynced (StoryMedia.requestURI Sprintf media) media p)).err
      = some .ErrNoMore := rfl
  refine ⟨rfl, rfl, ?_, herr, ?_⟩
  · simp only [StoryMedia.setValues, StoryMedia.resynced, List.map_map]
    apply List.map_congr_left
    intro item _
    have h := setToItem_flat item (.StoryMedia self) media.inst
    simp [h.2.1, h.2.2.1, h.2.2.2.2.1]
  · intro Sprintf2 self2 insta2 params2
    have hne : (StoryMedia.setValues self
        (StoryMedia.resynced (StoryMedia.requestURI Sprintf media) media p)).err ≠ none := by
      rw [herr]; simp
    rw [storyNext_terminal Sprintf2 self2 insta2 _ params2 hne]
    exact ⟨rfl, herr⟩

theorem StoryMedia_Next_resync_witness :
    liveTray.err = none ∧
    (StoryMedia.Next plainSprintf 1 (cursorSession none) liveTray []).1 = true ∧
    (StoryMedia.Next plainSprintf 1 (cursorSession none) liveTray []).2.1.Error
      = some .ErrNoMore :=
  ⟨rfl,
    (StoryMedia_Next_resync plainSprintf 1 (cursorSession none) liveTray [] (cursorBody none)
      trayPage rfl rfl rfl).1,
    (StoryMedia_Next_resync plainSprintf 1 (cursorSession none) liveTray [] (cursorBody none)
      trayPage rfl rfl rfl).2.2.2.1⟩

/-- C5. `StoryMedia.Next` failure is sticky: on a tray with no recorded error,
when the transport fails with `e`, or the body is rejected by the decoder with
`e`, `Next` returns false and changes the tray in its `err` field only, which
becomes `e`; `Error()` then returns `e`, and every later call returns false
and changes nothing. -/
theorem StoryMedia_Next_failure_sticky (Sprintf : String → Int → String) (self : Nat)
    (insta : Instagram) (media : StoryMedia) (params : List Dyn) (e : Err)
    (hlive : media.err = none)
    (hfail :
      insta.transport insta.calls (.sendSimpleRequest (StoryMedia.requestURI Sprintf media))
        = .error e ∨
      ∃ body,
        insta.transport insta.calls (.sendSimpleRequest (StoryMedia.requestURI Sprintf media))
          = .ok body ∧ body.story = .error e) :
    (StoryMedia.Next Sprintf self insta media params).1 = false ∧
    (StoryMedia.Next Sprintf self insta media params).2.1 = { media with err := some e } ∧
    (StoryMedia.Next Sprintf self insta media params).2.1.Error = some e ∧
    ∀ (Sprintf2 : String → Int → String) (self2 : Nat) (insta2 : Instagram)
      (params2 : List Dyn),
      StoryMedia.Next Sprintf2 self2 insta2
          (StoryMedia.Next Sprintf self insta media params).2.1 params2
        = (false, (StoryMedia.Next Sprintf self insta media params).2.1, insta2) := by
  have hn : StoryMedia.Next Sprintf self insta media params
      = (false, { media with err := some e },
          (insta.sendSimpleRequest (StoryMedia.requestURI Sprintf media)).2) := by
    rcases hfail with ht | ⟨body, ht, hd⟩
    · exact storyNext_transport_error Sprintf self insta media params e hlive ht
    · exact storyNext_decode_error Sprintf self insta media params body e hlive ht hd
  rw [hn]
  refine ⟨rfl, rfl, rfl, ?_⟩
  intro Sprintf2 self2 insta2 params2
  exact storyNext_terminal Sprintf2 self2 insta2 _ params2 (by simp)

theorem StoryMedia_Next_failure_sticky_witness :
    liveTray.err = none ∧
    (StoryMedia.Next plainSprintf 1 (flakySession (.other "timeout")) liveTray []).1 = false ∧
    (StoryMedia.Next plainSprintf 1 (flakySession (.other "timeout")) liveTray []).2.1.Error
      = some (.other "timeout") :=
  ⟨rfl,
    (StoryMedia_Next_failure_sticky plainSprintf 1 (flakySession (.other "timeout")) liveTray []
      (.other "timeout") rfl (Or.inl rfl)).1,
    (StoryMedia_Next_failure_sticky plainSprintf 1 (flakySession (.other "timeout")) liveTray []
      (.other "timeout") rfl (Or.inl rfl)).2.2.1⟩

/-- C6. Cursor following: a `FeedMedia.Next` call on a live feed adds exactly
one call to the session, the request whose query carries `max_id` equal to
`ID()` of the current cursor, `rank_token` equal to the session's rank token,
`min_timestamp` equal to the stored timestamp and `ranked_content` equal to
the ranked flag. `ID()` is a string cursor itself, the decimal text of an
int64, the literal text of a `json.Number` and empty for an absent cursor.
After a successful advance whose page carries `next_max_id` equal to the
string or number with text `t`, `ID()` is `t`, so the request of any later
call carries `max_id` equal to `t`. -/
theorem FeedMedia_Next_cursor_following (Sprintf : String → Int → String) (self : Nat)
    (insta : Instagram) (media : FeedMedia) (params : List Dyn) (hlive : media.err = none) :
    (FeedMedia.Next Sprintf self insta media params).2.2.calls
      = insta.calls ++ [.sendRequest
          { Endpoint :=
              if media.uid ≠ 0 then Sprintf media.endpoint media.uid else media.endpoint,
            Query := [("max_id", media.ID), ("rank_token", insta.rankToken),
              ("min_timestamp", media.timestamp), ("ranked_content", rankedContent params)],
            IsPost := media.IsTimelineMedia }] ∧
    (∀ s, ({ media with NextID := .string s }).ID = s) ∧
    (∀ n, ({ media with NextID := .int64 n }).ID = FormatInt n) ∧
    (∀ lit, ({ media with NextID := .Number lit }).ID = lit) ∧
    ({ media with NextID := .nil }).ID = "" ∧
    ∀ (body : Body) (p : FeedPage) (t : String),
      insta.transport insta.calls
          (.sendRequest (FeedMedia.request Sprintf insta media params)) = .ok body →
      body.feed = .ok p →
      (p.next_max_id = some (.str t) ∨ p.next_max_id = some (.num t)) →
      (FeedMedia.Next Sprintf self insta media params).1 = true ∧
      (FeedMedia.Next Sprintf self insta media params).2.1.ID = t ∧
      ∀ (Sprintf2 : String → Int → String) (insta2 : Instagram) (params2 : List Dyn),
        (FeedMedia.request Sprintf2 insta2
          (FeedMedia.Next Sprintf self insta media params).2.1 params2).Query.lookup "max_id"
          = some t := by
  refine ⟨?_, fun _ => rfl, fun _ => rfl, fun _ => rfl, rfl, ?_⟩
  · rw [feedNext_session Sprintf self insta media params hlive]
    rfl
  · intro body p t ht hd hc
    rw [feedNext_page Sprintf self insta media params body p hlive ht hd]
    have hid : (FeedMedia.setValues self
        (FeedMedia.advanced (FeedMedia.request Sprintf insta media params).Endpoint media p)).ID
        = t := by
      rcases hc with hc | hc <;>
        simp [FeedMedia.setValues, FeedMedia.advanced, FeedMedia.ID, hc, unmarshalInterface]
    refine ⟨rfl, hid, ?_⟩
    intro Sprintf2 insta2 params2
    have hq : (FeedMedia.request Sprintf2 insta2
        (FeedMedia.setValues self
          (FeedMedia.advanced (FeedMedia.request Sprintf insta media params).Endpoint media p))
        params2).Query.lookup "max_id"
        = some (FeedMedia.setValues self
          (FeedMedia.advanced (FeedMedia.request Sprintf insta media params).Endpoint media
            p)).ID := by
      simp [FeedMedia.request, List.lookup]
    rw [hq, hid]

theorem FeedMedia_Next_cursor_following_witness :
    liveFeed.err = none ∧
    (FeedMedia.Next plainSprintf 1 (cursorSession (some (.str "QVFE"))) liveFeed []).2.2.calls
      = [.sendRequest
          { Endpoint := "feed/timeline/",
            Query := [("max_id", ""), ("rank_token", "rank"), ("min_timestamp", ""),
              ("ranked_content", "true")],
            IsPost := false }] ∧
    (FeedMedia.Next plainSprintf 1 (cursorSession (some (.str "QVFE"))) liveFeed []).2.1.ID
      = "QVFE" :=
  ⟨rfl,
    (FeedMedia_Next_cursor_following plainSprintf 1 (cursorSession (some (.str "QVFE")))
      liveFeed [] rfl).1,
    ((FeedMedia_Next_cursor_following plainSprintf 1 (cursorSession (some (.str "QVFE")))
      liveFeed [] rfl).2.2.2.2.2 (cursorBody (some (.str "QVFE")))
      (cursorPage (some (.str "QVFE"))) "QVFE" rfl rfl (Or.inl rfl)).2.1⟩

/-! ## PreviewComments on generic arrays -/

theorem previewDecodeLoop_ok (fields : List (String × JSON) → Except Err Comment)
    (xs : List Dyn) (cs acc : List Comment)
    (h : xs.map (structuredDecode fields) = cs.map Except.ok) :
    previewDecodeLoop fields xs acc = acc ++ cs := by
  induction xs generalizing cs acc with
  | nil =>
    cases cs with
    | nil => simp [previewDecodeLoop]
    | cons c cs => simp at h
  | cons x xs ih =>
    cases cs with
    | nil => simp at h
    | cons c cs =>
      simp only [List.map_cons, List.cons.injEq] at h
      have hx := h.1
      simp only [structuredDecode, Marshal] at hx
      simp only [previewDecodeLoop, Marshal, hx]
      rw [ih cs (acc ++ [c]) h.2]
      simp

theorem previewDecodeLoop_fail (fields : List (String × JSON) → Except Err Comment)
    (xs : List Dyn) (acc : List Comment)
    (h : ∃ x ∈ xs, ∃ e, structuredDecode fields x = .error e) :
    previewDecodeLoop fields xs acc = [] := by
  induction xs generalizing acc with
  | nil => simp at h
  | cons x xs ih =>
    simp only [previewDecodeLoop, Marshal]
    cases hx : unmarshalComment fields (marshalValue x) with
    | error e => rfl
    | ok c =>
      simp only []
      apply ih
      obtain ⟨y, hy, e, he⟩ := h
      rcases List.mem_cons.mp hy with rfl | hy
      · simp [structuredDecode, Marshal, hx] at he
      · exact ⟨y, hy, e, he⟩

theorem isString_of_not_isInterface (d : Dyn) (h : d.isInterface = false) :
    d.isString = false := by
  cases d <;> simp_all [Dyn.isInterface, Dyn.isString]

/-- C11 (counterexample). For the generic array `[null]` every element passes
the structured decode (a JSON null leaves the `Comment` at its zero value),
yet `Item.PreviewComments` returns the empty sequence, not one `Comment` per
element: the inner type switch selects no case for a nil first element. -/
theorem PreviewComments_null_first_empty :
    [Dyn.nil].map (structuredDecode textOnly) = [Except.ok { Text := "", other := [] }] ∧
    ({ Item.zero with Previewcomments := .slice [.nil] }).PreviewComments textOnly = some [] ∧
    ({ Item.zero with Previewcomments := .slice [.nil] }).PreviewComments textOnly
      ≠ some [{ Text := "", other := [] }] := by
  refine ⟨rfl, rfl, ?_⟩
  simp [Item.PreviewComments, Dyn.isInterface, Dyn.isString]

/-- C11 (amended). `Item.PreviewComments` is all-or-nothing on a non-empty
generic array whose first element is not nil: if any element fails the
structured decode the result is empty, and if every element decodes the result
is the sequence of the decoded comments, one per element in input order. -/
theorem PreviewComments_all_or_nothing (fields : List (String × JSON) → Except Err Comment)
    (item : Item) (s0 : Dyn) (rest : List Dyn) (h0 : s0.isInterface = true) :
    ((∃ x ∈ s0 :: rest, ∃ e, structuredDecode fields x = .error e) →
      ({ item with Previewcomments := .slice (s0 :: rest) }).PreviewComments fields = some []) ∧
    (∀ cs : List Comment, (s0 :: rest).map (structuredDecode fields) = cs.map Except.ok →
      ({ item with Previewcomments := .slice (s0 :: rest) }).PreviewComments fields
        = some cs) := by
  constructor
  · intro h
    simp only [Item.PreviewComments, h0, if_true]
    rw [previewDecodeLoop_fail fields (s0 :: rest) [] h]
  · intro cs h
    simp only [Item.PreviewComments, h0, if_true]
    rw [previewDecodeLoop_ok fields (s0 :: rest) cs [] h]
    simp

theorem PreviewComments_all_or_nothing_witness :
    (Dyn.map [("text", .string "hi")]).isInterface = true ∧
    ({ Item.zero with
        Previewcomments := .slice [.map [("text", .string "hi")], .nil] }).PreviewComments
        textOnly
      = some [{ Text := "hi", other := [] }, { Text := "", other := [] }] ∧
    ({ Item.zero with
        Previewcomments := .slice [.map [("text", .string "hi")], .bool true] }).PreviewComments
        textOnly
      = some [] :=
  ⟨rfl,
    (PreviewComments_all_or_nothing textOnly Item.zero (.map [("text", .string "hi")]) [.nil]
      rfl).2 [{ Text := "hi", other := [] }, { Text := "", other := [] }] rfl,
    (PreviewComments_all_or_nothing textOnly Item.zero (.map [("text", .string "hi")])
      [.bool true] rfl).1
      ⟨.bool true, by simp, .other "json: cannot unmarshal into Go value of type goinsta.Comment",
        rfl⟩⟩

/-- C12. `Item.PreviewComments` is total: for every dynamic value held in
`Previewcomments` it returns a sequence and never panics; for nil, a bool, an
int, an int64, a float64, a json.Number, a `[]string`, an object, the empty
array and an array whose first element is nil, that sequence is empty. -/
theorem PreviewComments_total (fields : List (String × JSON) → Except Err Comment)
    (item : Item) :
    (∃ cs, item.PreviewComments fields = some cs) ∧
    ({ item with Previewcomments := .nil }).PreviewComments fields = some [] ∧
    (∀ b, ({ item with Previewcomments := .bool b }).PreviewComments fields = some []) ∧
    (∀ n, ({ item with Previewcomments := .int n }).PreviewComments fields = some []) ∧
    (∀ n, ({ item with Previewcomments := .int64 n }).PreviewComments fields = some []) ∧
    (∀ lit, ({ item with Previewcomments := .float64 lit }).PreviewComments fields = some []) ∧
    (∀ lit, ({ item with Previewcomments := .Number lit }).PreviewComments fields = some []) ∧
    (∀ xs, ({ item with Previewcomments := .strings xs }).PreviewComments fields = some []) ∧
    (∀ kvs, ({ item with Previewcomments := .map kvs }).PreviewComments fields = some []) ∧
    ({ item with Previewcomments := .slice [] }).PreviewComments fields = some [] ∧
    (∀ rest, ({ item with Previewcomments := .slice (.nil :: rest) }).PreviewComments fields
      = some []) := by
  refine ⟨?_, rfl, fun _ => rfl, fun _ => rfl, fun _ => rfl, fun _ => rfl, fun _ => rfl,
    fun _ => rfl, fun _ => rfl, rfl, fun _ => rfl⟩
  unfold Item.PreviewComments
  split
  · split
    · exact ⟨_, rfl⟩
    · rename_i s0 _ _
      cases h : s0.isInterface with
      | true => simp
      | false => simp [isString_of_not_isInterface s0 h]
  · exact ⟨_, rfl⟩
  · exact ⟨_, rfl⟩

/-! ## GetBest -/

theorem step_triple (m : bestMedia) (w h : Int) (url : String) :
    (if m.w < w ∧ h > m.h ∧ url ≠ "" then ({ w := w, h := h, url := url } : bestMedia)
      else m).triple
      = if replaces m.triple (w, h, url) then (w, h, url) else m.triple := by
  by_cases c : m.w < w ∧ h > m.h ∧ url ≠ ""
  · have h2 : replaces m.triple (w, h, url) = true := by
      simp only [replaces, bestMedia.triple, Bool.and_eq_true, decide_eq_true_eq]
      exact ⟨⟨c.1, c.2.1⟩, c.2.2⟩
    rw [if_pos c, h2]
    rfl
  · have h2 : replaces m.triple (w, h, url) = false := by
      cases hr : replaces m.triple (w, h, url) with
      | false => rfl
      | true =>
        simp only [replaces, bestMedia.triple, Bool.and_eq_true, decide_eq_true_eq] at hr
        exact absurd ⟨hr.1.1, hr.1.2, hr.2⟩ c
    rw [if_neg c, h2]
    rfl

theorem foldl_videos_scan (t : List Video) (m : bestMedia) :
    (t.foldl (fun m video =>
        if m.w < video.Width ∧ video.Height > m.h ∧ video.URL ≠ "" then
          { w := video.Width, h := video.Height, url := video.URL }
        else m) m).triple
      = scanBest m.triple (t.map (fun v => (v.Width, v.Height, v.URL))) := by
  induction t generalizing m with
  | nil => rfl
  | cons v t ih =>
    simp only [List.foldl_cons, List.map_cons, scanBest]
    rw [ih, step_triple]

theorem foldl_candidates_scan (t : List Candidate) (m : bestMedia) :
    (t.foldl (fun m image =>
        if m.w < image.Width ∧ image.Height > m.h ∧ image.URL ≠ "" then
          { w := image.Width, h := image.Height, url := image.URL }
        else m) m).triple
      = scanBest m.triple (t.map (fun v => (v.Width, v.Height, v.URL))) := by
  induction t generalizing m with
  | nil => rfl
  | cons v t ih =>
    simp only [List.foldl_cons, List.map_cons, scanBest]
    rw [ih, step_triple]

theorem GetBest_videos_scan (t : List Video) :
    GetBest (.Videos t)
      = (scanBest (0, 0, "") (t.map (fun v => (v.Width, v.Height, v.URL)))).2.2 := by
  have h := foldl_videos_scan t { w := 0, h := 0, url := "" }
  simp only [GetBest]
  exact congrArg (fun r => r.2.2) h

theorem GetBest_candidates_scan (t : List Candidate) :
    GetBest (.Candidates t)
      = (scanBest (0, 0, "") (t.map (fun v => (v.Width, v.Height, v.URL)))).2.2 := by
  have h := foldl_candidates_scan t { w := 0, h := 0, url := "" }
  simp only [GetBest]
  exact congrArg (fun r => r.2.2) h

/-- C13. `GetBest` is the running best-so-far scan: on a `[]Video` and on a
`[]Candidate` the result is the URL of the state that `scanBest` reaches from
(0, 0, "") over the (width, height, url) triples of the list; a candidate
that ties the current best in width or in height does not replace it; the
empty list yields ""; and the example list yields "u2". -/
theorem GetBest_running_scan :
    (∀ t : List Video, GetBest (.Videos t)
      = (scanBest (0, 0, "") (t.map (fun v => (v.Width, v.Height, v.URL)))).2.2) ∧
    (∀ t : List Candidate, GetBest (.Candidates t)
      = (scanBest (0, 0, "") (t.map (fun v => (v.Width, v.Height, v.URL)))).2.2) ∧
    (∀ best cand : Int × Int × String, replaces best cand = true ↔
      best.1 < cand.1 ∧ best.2.1 < cand.2.1 ∧ cand.2.2 ≠ "") ∧
    (∀ best cand : Int × Int × String, cand.1 = best.1 ∨ cand.2.1 = best.2.1 →
      ∀ cands, scanBest best (cand :: cands) = scanBest best cands) ∧
    GetBest (.Videos []) = "" ∧ GetBest (.Candidates []) = "" ∧
    GetBest (.Videos (exampleTriples.map (fun c => { Width := c.1, Height := c.2.1, URL := c.2.2 })))
      = "u2" ∧
    GetBest (.Candidates
      (exampleTriples.map (fun c => { Width := c.1, Height := c.2.1, URL := c.2.2 }))) = "u2" := by
  refine ⟨GetBest_videos_scan, GetBest_candidates_scan, ?_, ?_, rfl, rfl, ?_, ?_⟩
  · intro best cand
    simp [replaces, and_assoc]
  · intro best cand h cands
    have hr : replaces best cand = false := by
      simp only [replaces, Bool.and_eq_false_iff, decide_eq_false_iff_not]
      rcases h with h | h
      · left; left; omega
      · left; right; omega
    simp [scanBest, hr]
  · decide
  · decide

theorem scanBest_props (cands : List (Int × Int × String)) (best : Int × Int × String) :
    (scanBest best cands = best ∨
      (scanBest best cands ∈ cands ∧ (scanBest best cands).2.2 ≠ "")) ∧
    best.1 ≤ (scanBest best cands).1 ∧ best.2.1 ≤ (scanBest best cands).2.1 ∧
    ∀ c ∈ cands, c.2.2 ≠ "" →
      ¬ ((scanBest best cands).1 < c.1 ∧ (scanBest best cands).2.1 < c.2.1) := by
  induction cands generalizing best with
  | nil => simp [scanBest]
  | cons c cs ih =>
    simp only [scanBest]
    cases hr : replaces best c with
    | true =>
      simp only [if_true]
      obtain ⟨h1, h2, h3, h4⟩ := ih c
      simp only [replaces, Bool.and_eq_true, decide_eq_true_eq] at hr
      refine ⟨?_, by omega, by omega, ?_⟩
      · right
        rcases h1 with h1 | h1
        · rw [h1]; exact ⟨List.mem_cons_self _ _, hr.2⟩
        · exact ⟨List.mem_cons_of_mem _ h1.1, h1.2⟩
      · intro d hd hurl
        rcases List.mem_cons.mp hd with rfl | hd
        · omega
        · exact h4 d hd hurl
    | false =>
      simp only [Bool.false_eq_true, if_false]
      obtain ⟨h1, h2, h3, h4⟩ := ih best
      refine ⟨?_, h2, h3, ?_⟩
      · rcases h1 with h1 | h1
        · exact Or.inl h1
        · exact Or.inr ⟨List.mem_cons_of_mem _ h1.1, h1.2⟩
      · intro d hd hurl
        rcases List.mem_cons.mp hd with rfl | hd
        · intro hlt
          have : replaces best d = true := by
            simp only [replaces, Bool.and_eq_true, decide_eq_true_eq]
            exact ⟨⟨by omega, by omega⟩, hurl⟩
          rw [this] at hr
          exact Bool.noConfusion hr
        · exact h4 d hd hurl

theorem scanBest_undominated (cands : List (Int × Int × String))
    (h : ∃ c ∈ cands, c.2.2 ≠ "" ∧ 0 < c.1 ∧ 0 < c.2.1) :
    scanBest (0, 0, "") cands ∈ cands ∧ (scanBest (0, 0, "") cands).2.2 ≠ "" ∧
    ∀ c ∈ cands, c.2.2 ≠ "" →
      ¬ ((scanBest (0, 0, "") cands).1 < c.1 ∧ (scanBest (0, 0, "") cands).2.1 < c.2.1) := by
  obtain ⟨h1, _, _, h4⟩ := scanBest_props cands (0, 0, "")
  obtain ⟨c, hc, hurl, hw, hh⟩ := h
  rcases h1 with h1 | h1
  · exfalso
    apply h4 c hc hurl
    rw [h1]
    exact ⟨hw, hh⟩
  · exact ⟨h1.1, h1.2, h4⟩

/-- C14 (counterexample). Of the two renditions (200, 80, "a") and
(150, 900, "b") `GetBest` returns "a", whose area 16000 is not maximal: no
candidate with the returned URL has an area that bounds that of "b". And for
the single rendition (0, 5, "x"), which has a non-empty URL, `GetBest`
returns "", the URL of no candidate with a non-empty URL. -/
theorem GetBest_not_max_area :
    ((∃ c ∈ tallNarrow, c.URL ≠ "") ∧ GetBest (.Candidates tallNarrow) = "a" ∧
      ¬ ∃ r ∈ tallNarrow, r.URL ≠ "" ∧ GetBest (.Candidates tallNarrow) = r.URL ∧
        ∀ c ∈ tallNarrow, c.URL ≠ "" → c.Width * c.Height ≤ r.Width * r.Height) ∧
    ((∃ c ∈ zeroWidth, c.URL ≠ "") ∧ GetBest (.Candidates zeroWidth) = "" ∧
      ¬ ∃ r ∈ zeroWidth, r.URL ≠ "" ∧ GetBest (.Candidates zeroWidth) = r.URL) := by
  decide

/-- C14 (amended). For every list, `[]Video` or `[]Candidate`, that contains
a candidate with a non-empty URL and positive width and height, `GetBest`
returns the URL of a candidate of the list that has a non-empty URL and that
no candidate with a non-empty URL exceeds in both width and height. -/
theorem GetBest_undominated (tv : List Video) (tc : List Candidate)
    (hv : ∃ c ∈ tv, c.URL ≠ "" ∧ 0 < c.Width ∧ 0 < c.Height)
    (hc : ∃ c ∈ tc, c.URL ≠ "" ∧ 0 < c.Width ∧ 0 < c.Height) :
    (∃ r ∈ tv, r.URL ≠ "" ∧ GetBest (.Videos tv) = r.URL ∧
      ∀ c ∈ tv, c.URL ≠ "" → ¬ (r.Width < c.Width ∧ r.Height < c.Height)) ∧
    (∃ r ∈ tc, r.URL ≠ "" ∧ GetBest (.Candidates tc) = r.URL ∧
      ∀ c ∈ tc, c.URL ≠ "" → ¬ (r.Width < c.Width ∧ r.Height < c.Height)) := by
  constructor
  · obtain ⟨c0, hc0, hu0, hw0, hh0⟩ := hv
    obtain ⟨hm, hu, hd⟩ := scanBest_undominated
      (tv.map (fun v => (v.Width, v.Height, v.URL)))
      ⟨(c0.Width, c0.Height, c0.URL), List.mem_map.mpr ⟨c0, hc0, rfl⟩, hu0, hw0, hh0⟩
    obtain ⟨r, hr, hreq⟩ := List.mem_map.mp hm
    refine ⟨r, hr, ?_, ?_, ?_⟩
    · rw [← hreq] at hu; exact hu
    · rw [GetBest_videos_scan, ← hreq]
    · intro c hc hurl
      have := hd (c.Width, c.Height, c.URL) (List.mem_map.mpr ⟨c, hc, rfl⟩) hurl
      rw [← hreq] at this
      exact this
  · obtain ⟨c0, hc0, hu0, hw0, hh0⟩ := hc
    obtain ⟨hm, hu, hd⟩ := scanBest_undominated
      (tc.map (fun v => (v.Width, v.Height, v.URL)))
      ⟨(c0.Width, c0.Height, c0.URL), List.mem_map.mpr ⟨c0, hc0, rfl⟩, hu0, hw0, hh0⟩
    obtain ⟨r, hr, hreq⟩ := List.mem_map.mp hm
    refine ⟨r, hr, ?_, ?_, ?_⟩
    · rw [← hreq] at hu; exact hu
    · rw [GetBest_candidates_scan, ← hreq]
    · intro c hc hurl
      have := hd (c.Width, c.Height, c.URL) (List.mem_map.mpr ⟨c, hc, rfl⟩) hurl
      rw [← hreq] at this
      exact this

theorem GetBest_undominated_witness :
    (∃ c ∈ [({ Width := 100, Height := 50, URL := "u1" } : Video)],
      c.URL ≠ "" ∧ 0 < c.Width ∧ 0 < c.Height) ∧
    (∃ c ∈ tallNarrow, c.URL ≠ "" ∧ 0 < c.Width ∧ 0 < c.Height) ∧
    (∃ r ∈ tallNarrow, r.URL ≠ "" ∧ GetBest (.Candidates tallNarrow) = r.URL ∧
      ∀ c ∈ tallNarrow, c.URL ≠ "" → ¬ (r.Width < c.Width ∧ r.Height < c.Height)) :=
  ⟨by decide, by decide,
    (GetBest_undominated [{ Width := 100, Height := 50, URL := "u1" }] tallNarrow
      (by decide) (by decide)).2⟩

/-! ## The ranked-content option -/

theorem rankedContent_inert (params : List Dyn) (ranked : String)
    (h : ∀ p ∈ params, (∀ b, p ≠ .bool b) ∧ ∀ s, p = .string s → ∀ b, ParseBool s ≠ .ok b) :
    params.foldl (fun ranked param =>
      match param with
      | .string s =>
        match ParseBool s with
        | .ok _ => s
        | .error _ => ranked
      | .bool s => if !s then "false" else ranked
      | _ => ranked) ranked = ranked := by
  induction params generalizing ranked with
  | nil => rfl
  | cons p ps ih =>
    have hp := h p (List.mem_cons_self _ _)
    have hps : ∀ q ∈ ps, (∀ b, q ≠ .bool b) ∧ ∀ s, q = .string s → ∀ b, ParseBool s ≠ .ok b :=
      fun q hq => h q (List.mem_cons_of_mem _ hq)
    simp only [List.foldl_cons]
    cases p with
    | bool b => exact absurd rfl (hp.1 b)
    | string s =>
      cases hs : ParseBool s with
      | ok b => exact absurd hs (hp.2 s rfl b)
      | error e => simp only [hs]; exact ih ranked hps
    | _ => exact ih ranked hps

/-- C15. On a live feed `FeedMedia.Next` sends one request whose
`ranked_content` is the value left by the option loop. That value is "true"
when no option is given and when every option is neither a bool nor a string
that boolean parsing accepts; the string "false" or the bool false, given
alone or as the last option, makes it "false"; the string "true" makes it
"true", and the bool true leaves it as the options before it made it, "true"
when it is the only option. -/
theorem Next_ranked_content (Sprintf : String → Int → String) (self : Nat)
    (insta : Instagram) (media : FeedMedia) (params : List Dyn) (hlive : media.err = none) :
    (∃ o, (FeedMedia.Next Sprintf self insta media params).2.2.calls
        = insta.calls ++ [.sendRequest o] ∧
      o.Query.lookup "ranked_content" = some (rankedContent params)) ∧
    rankedContent [] = "true" ∧
    ((∀ p ∈ params, (∀ b, p ≠ .bool b) ∧ ∀ s, p = .string s → ∀ b, ParseBool s ≠ .ok b) →
      rankedContent params = "true") ∧
    rankedContent [.string "false"] = "false" ∧
    rankedContent [.bool false] = "false" ∧
    rankedContent [.string "true"] = "true" ∧
    rankedContent [.bool true] = "true" ∧
    (∀ ps, rankedContent (ps ++ [.string "false"]) = "false") ∧
    (∀ ps, rankedContent (ps ++ [.bool false]) = "false") ∧
    (∀ ps, rankedContent (ps ++ [.string "true"]) = "true") ∧
    (∀ ps, rankedContent (ps ++ [.bool true]) = rankedContent ps) := by
  refine ⟨⟨FeedMedia.request Sprintf insta media params, ?_, ?_⟩, rfl, ?_, ?_, rfl, ?_, rfl,
    ?_, ?_, ?_, ?_⟩
  · rw [feedNext_session Sprintf self insta media params hlive]
    rfl
  · simp [FeedMedia.request, List.lookup]
  · exact rankedContent_inert params "true"
  · simp [rankedContent, ParseBool]
  · simp [rankedContent, ParseBool]
  · intro ps; simp [rankedContent, List.foldl_append, ParseBool]
  · intro ps; simp [rankedContent, List.foldl_append]
  · intro ps; simp [rankedContent, List.foldl_append, ParseBool]
  · intro ps; simp [rankedContent, List.foldl_append]

theorem Next_ranked_content_witness :
    liveFeed.err = none ∧
    ∃ o, (FeedMedia.Next plainSprintf 1 (cursorSession none) liveFeed
        [.string "maybe", .bool false]).2.2.calls
        = (cursorSession none).calls ++ [.sendRequest o] ∧
      o.Query.lookup "ranked_content" = some "false" :=
  ⟨rfl,
    (Next_ranked_content plainSprintf 1 (cursorSession none) liveFeed
      [.string "maybe", .bool false] rfl).1⟩

/-! ## The back-reference pass on item trees -/

theorem descendantsOf_mem (items : List Item) (d : Item) :
    d ∈ descendantsOf items ↔ ∃ item ∈ items, d ∈ item.descendants := by
  induction items with
  | nil => simp [descendantsOf]
  | cons c cs ih => simp [descendantsOf, ih]

mutual
theorem setToItemAs_attached (media : Media) (inst : Option Nat) :
    ∀ (item : Item) (user : User) (d : Item),
      d ∈ (setToItemAs user media inst item).descendants →
      d.media = media ∧ d.Comments = some newComments ∧ d.User = { user with inst := inst }
  | ⟨_, _, _, _, _, _, _, carousel, _, _, _, _, _, _, _, _⟩, user, d, h => by
    simp only [setToItemAs, Item.descendants, List.mem_cons] at h
    rcases h with rfl | h
    · exact ⟨rfl, rfl, rfl⟩
    · exact setToCarousel_attached media inst carousel { user with inst := inst } d h
theorem setToCarousel_attached (media : Media) (inst : Option Nat) :
    ∀ (items : List Item) (user : User) (d : Item),
      d ∈ descendantsOf (setToCarousel user media inst items) →
      d.media = media ∧ d.Comments = some newComments ∧ d.User = { user with inst := inst }
  | [], _, d, h => by simp [setToCarousel, descendantsOf] at h
  | c :: cs, user, d, h => by
    simp only [setToCarousel, descendantsOf, List.mem_append] at h
    rcases h with h | h
    · exact setToItemAs_attached media inst c user d h
    · exact setToCarousel_attached media inst cs user d h
end

mutual
theorem setToItemAs_flat (media : Media) (inst : Option Nat) :
    ∀ (item : Item) (user : User),
      (setToItemAs user media inst item).descendants.map Item.flat
        = item.descendants.map Item.flat
  | ⟨_, _, _, _, _, _, _, carousel, _, _, _, _, _, _, _, _⟩, user => by
    simp only [setToItemAs, Item.descendants, List.map_cons, List.cons.injEq]
    constructor
    · simp [Item.flat, setToCarousel_map]
    · exact setToCarousel_flat media inst carousel { user with inst := inst }
theorem setToCarousel_flat (media : Media) (inst : Option Nat) :
    ∀ (items : List Item) (user : User),
      (descendantsOf (setToCarousel user media inst items)).map Item.flat
        = (descendantsOf items).map Item.flat
  | [], _ => by simp [setToCarousel, descendantsOf]
  | c :: cs, user => by
    simp only [setToCarousel, descendantsOf, List.map_append]
    rw [setToItemAs_flat media inst c user, setToCarousel_flat media inst cs user]
end

mutual
theorem setToItemAs_again (media media2 : Media) (inst inst2 : Option Nat) :
    ∀ (item : Item) (user user2 : User),
      setToItemAs user media inst (setToItemAs user2 media2 inst2 item)
        = setToItemAs user media inst item
  | ⟨_, _, _, _, _, _, _, carousel, _, _, _, _, _, _, _, _⟩, user, user2 => by
    simp only [setToItemAs, Item.mk.injEq, true_and, and_true]
    exact setToCarousel_again media media2 inst inst2 carousel { user with inst := inst }
      { user2 with inst := inst2 }
theorem setToCarousel_again (media media2 : Media) (inst inst2 : Option Nat) :
    ∀ (items : List Item) (user user2 : User),
      setToCarousel user media inst (setToCarousel user2 media2 inst2 items)
        = setToCarousel user media inst items
  | [], _, _ => by simp [setToCarousel]
  | c :: cs, user, user2 => by
    simp only [setToCarousel]
    rw [setToItemAs_again media media2 inst inst2 c user user2,
      setToCarousel_again media media2 inst inst2 cs user user2]
end

theorem setToItemAs_user_inst (user : User) (media : Media) (inst : Option Nat) (item : Item) :
    setToItemAs { user with inst := inst } media inst item = setToItemAs user media inst item := by
  cases item
  simp [setToItemAs]

theorem setToItem_User (item : Item) (media : Media) (inst : Option Nat) :
    (setToItem item media inst).User = { item.User with inst := inst } := by
  cases item
  simp [setToItem, setToItemAs]

theorem setToItem_again (item : Item) (media : Media) (inst : Option Nat) :
    setToItem (setToItem item media inst) media inst = setToItem item media inst := by
  have h : setToItem (setToItem item media inst) media inst
      = setToItemAs (setToItem item media inst).User media inst
          (setToItemAs item.User media inst item) := rfl
  rw [h, setToItem_User, setToItemAs_again, setToItemAs_user_inst]
  rfl

theorem FeedMedia_setValues_again (self : Nat) (media : FeedMedia) :
    FeedMedia.setValues self (FeedMedia.setValues self media) = FeedMedia.setValues self media := by
  simp only [FeedMedia.setValues, List.map_map]
  congr 1
  apply List.map_congr_left
  intro item _
  exact setToItem_again item (.FeedMedia self) media.inst

theorem StoryMedia_setValues_again (self : Nat) (media : StoryMedia) :
    StoryMedia.setValues self (StoryMedia.setValues self media)
      = StoryMedia.setValues self media := by
  simp only [StoryMedia.setValues, List.map_map]
  congr 1
  apply List.map_congr_left
  intro item _
  exact setToItem_again item (.StoryMedia self) media.inst

theorem descendantsOf_map_setToItem_flat (items : List Item) (media : Media)
    (inst : Option Nat) :
    (descendantsOf (items.map (fun item => setToItem item media inst))).map Item.flat
      = (descendantsOf items).map Item.flat := by
  induction items with
  | nil => rfl
  | cons c cs ih =>
    simp only [List.map_cons, descendantsOf, List.map_append, ih]
    rw [show setToItem c media inst = setToItemAs c.User media inst c from rfl,
      setToItemAs_flat]

/-! ## State replacement -/

/-- C16 (counterexample). A live feed bound to owner id 5 through the template
"feed/user/%d/" advances successfully, and afterwards its owner id is 0 and
its stored endpoint is "feed/user/5/": neither is the same as before the
call. -/
theorem FeedMedia_Next_owner_id_reset :
    userFeed.uid = 5 ∧ userFeed.endpoint = "feed/user/%d/" ∧
    (FeedMedia.Next decimalSprintf 1 (cursorSession none) userFeed []).1 = true ∧
    (FeedMedia.Next decimalSprintf 1 (cursorSession none) userFeed []).2.1.uid = 0 ∧
    (FeedMedia.Next decimalSprintf 1 (cursorSession none) userFeed []).2.1.endpoint
      = "feed/user/5/" ∧
    (FeedMedia.Next decimalSprintf 1 (cursorSession none) userFeed []).2.1.uid ≠ userFeed.uid ∧
    (FeedMedia.Next decimalSprintf 1 (cursorSession none) userFeed []).2.1.endpoint
      ≠ userFeed.endpoint := by
  refine ⟨rfl, rfl, rfl, rfl, rfl, ?_, ?_⟩ <;> decide

/-- C16 (amended). After a successful advance the wire fields of the feed are
those of the decoded page (the items with their back-references attached, the
counts, the cursor, the more-available flag, the status) and the session
handle is the one before the call; the stored endpoint is the endpoint that
was requested (the former endpoint formatted with the owner id when that was
non-zero) and the owner id is zero, so both are as before the call when no
owner id was bound; the timeline flag is as before the call unless the body
itself carries that field. -/
theorem FeedMedia_Next_state_replacement (Sprintf : String → Int → String) (self : Nat)
    (insta : Instagram) (media : FeedMedia) (params : List Dyn) (body : Body) (p : FeedPage)
    (hlive : media.err = none)
    (ht : insta.transport insta.calls (.sendRequest (FeedMedia.request Sprintf insta media params))
      = .ok body)
    (hd : body.feed = .ok p) :
    (FeedMedia.Next Sprintf self insta media params).1 = true ∧
    (FeedMedia.Next Sprintf self insta media params).2.1.Items
      = p.Items.map (fun item => setToItem item (.FeedMedia self) media.inst) ∧
    (FeedMedia.Next Sprintf self insta media params).2.1.TimelineItems = p.TimelineItems ∧
    (FeedMedia.Next Sprintf self insta media params).2.1.NumResults = p.NumResults ∧
    (FeedMedia.Next Sprintf self insta media params).2.1.MoreAvailable = p.MoreAvailable ∧
    (FeedMedia.Next Sprintf self insta media params).2.1.AutoLoadMoreEnabled
      = p.AutoLoadMoreEnabled ∧
    (FeedMedia.Next Sprintf self insta media params).2.1.Status = p.Status ∧
    (FeedMedia.Next Sprintf self insta media params).2.1.NextID
      = (match p.next_max_id with
        | none => Dyn.nil
        | some j => unmarshalInterface true j) ∧
    (FeedMedia.Next Sprintf self insta media params).2.1.inst = media.inst ∧
    (FeedMedia.Next Sprintf self insta media params).2.1.endpoint
      = (if media.uid ≠ 0 then Sprintf media.endpoint media.uid else media.endpoint) ∧
    (FeedMedia.Next Sprintf self insta media params).2.1.uid = 0 ∧
    (media.uid = 0 →
      (FeedMedia.Next Sprintf self insta media params).2.1.endpoint = media.endpoint ∧
      (FeedMedia.Next Sprintf self insta media params).2.1.uid = media.uid) ∧
    (p.IsTimelineMedia = none →
      (FeedMedia.Next Sprintf self insta media params).2.1.IsTimelineMedia
        = media.IsTimelineMedia) := by
  rw [feedNext_page Sprintf self insta media params body p hlive ht hd]
  refine ⟨rfl, rfl, rfl, rfl, rfl, rfl, rfl, rfl, rfl, rfl, rfl, ?_, ?_⟩
  · intro h0
    simp [FeedMedia.setValues, FeedMedia.advanced, FeedMedia.request, h0]
  · intro hn
    simp [FeedMedia.setValues, FeedMedia.advanced, hn]

theorem FeedMedia_Next_state_replacement_witness :
    userFeed.err = none ∧
    (FeedMedia.Next decimalSprintf 1 (cursorSession (some (.num "17"))) userFeed []).2.1.NextID
      = .Number "17" ∧
    (FeedMedia.Next decimalSprintf 1 (cursorSession (some (.num "17"))) userFeed []).2.1.inst
      = some 1 :=
  ⟨rfl,
    (FeedMedia_Next_state_replacement decimalSprintf 1 (cursorSession (some (.num "17")))
      userFeed [] (cursorBody (some (.num "17"))) (cursorPage (some (.num "17")))
      rfl rfl rfl).2.2.2.2.2.2.2.1,
    (FeedMedia_Next_state_replacement decimalSprintf 1 (cursorSession (some (.num "17")))
      userFeed [] (cursorBody (some (.num "17"))) (cursorPage (some (.num "17")))
      rfl rfl rfl).2.2.2.2.2.2.2.2.1⟩

/-! ## Back-references -/

/-- C17. After `setValues` on a `FeedMedia` or a `StoryMedia`, every item of
`Items` and every carousel descendant of it, at any depth, has the collection
as its owner back-reference and a new, empty comment handle; the pass visits
the whole tree, the descendants being the same in number and flat fields as
before; and the same holds for the state a successful `Next` leaves. The
pass is a total function on item trees. -/
theorem setValues_reaches_every_item (self : Nat) (feed : FeedMedia) (story : StoryMedia) :
    (∀ item ∈ (FeedMedia.setValues self feed).Items, ∀ d ∈ item.descendants,
      d.media = .FeedMedia self ∧ d.Comments = some newComments) ∧
    (∀ item ∈ (StoryMedia.setValues self story).Items, ∀ d ∈ item.descendants,
      d.media = .StoryMedia self ∧ d.Comments = some newComments) ∧
    (descendantsOf (FeedMedia.setValues self feed).Items).map Item.flat
      = (descendantsOf feed.Items).map Item.flat ∧
    (descendantsOf (StoryMedia.setValues self story).Items).map Item.flat
      = (descendantsOf story.Items).map Item.flat ∧
    (∀ (Sprintf : String → Int → String) (insta : Instagram) (params : List Dyn),
      (FeedMedia.Next Sprintf self insta feed params).1 = true →
      ∀ item ∈ (FeedMedia.Next Sprintf self insta feed params).2.1.Items,
        ∀ d ∈ item.descendants, d.media = .FeedMedia self ∧ d.Comments = some newComments) ∧
    (∀ (Sprintf : String → Int → String) (insta : Instagram) (params : List Dyn),
      (StoryMedia.Next Sprintf self insta story params).1 = true →
      ∀ item ∈ (StoryMedia.Next Sprintf self insta story params).2.1.Items,
        ∀ d ∈ item.descendants, d.media = .StoryMedia self ∧ d.Comments = some newComments) := by
  have hfeed : ∀ m : FeedMedia, ∀ item ∈ (FeedMedia.setValues self m).Items,
      ∀ d ∈ item.descendants, d.media = .FeedMedia self ∧ d.Comments = some newComments := by
    intro m item hitem d hd
    simp only [FeedMedia.setValues, List.mem_map] at hitem
    obtain ⟨orig, _, rfl⟩ := hitem
    have h := setToItemAs_attached (.FeedMedia self) m.inst orig orig.User d hd
    exact ⟨h.1, h.2.1⟩
  have hstory : ∀ m : StoryMedia, ∀ item ∈ (StoryMedia.setValues self m).Items,
      ∀ d ∈ item.descendants, d.media = .StoryMedia self ∧ d.Comments = some newComments := by
    intro m item hitem d hd
    simp only [StoryMedia.setValues, List.mem_map] at hitem
    obtain ⟨orig, _, rfl⟩ := hitem
    have h := setToItemAs_attached (.StoryMedia self) m.inst orig orig.User d hd
    exact ⟨h.1, h.2.1⟩
  refine ⟨hfeed feed, hstory story, ?_, ?_, ?_, ?_⟩
  · exact descendantsOf_map_setToItem_flat feed.Items (.FeedMedia self) feed.inst
  · exact descendantsOf_map_setToItem_flat story.Items (.StoryMedia self) story.inst
  · intro Sprintf insta params htrue
    by_cases hlive : feed.err = none
    · cases ht : insta.transport insta.calls
          (.sendRequest (FeedMedia.request Sprintf insta feed params)) with
      | error e =>
        rw [feedNext_transport_error Sprintf self insta feed params e hlive ht] at htrue
        exact absurd htrue (by simp)
      | ok body =>
        cases hd : body.feed with
        | error e =>
          rw [feedNext_decode_error Sprintf self insta feed params body e hlive ht hd] at htrue
          exact absurd htrue (by simp)
        | ok p =>
          rw [feedNext_page Sprintf self insta feed params body p hlive ht hd]
          exact hfeed _
    · rw [feedNext_terminal Sprintf self insta feed params hlive] at htrue
      exact absurd htrue (by simp)
  · intro Sprintf insta params htrue
    by_cases hlive : story.err = none
    · cases ht : insta.transport insta.calls
          (.sendSimpleRequest (StoryMedia.requestURI Sprintf story)) with
      | error e =>
        rw [storyNext_transport_error Sprintf self insta story params e hlive ht] at htrue
        exact absurd htrue (by simp)
      | ok body =>
        cases hd : body.story with
        | error e =>
          rw [storyNext_decode_error Sprintf self insta story params body e hlive ht hd] at htrue
          exact absurd htrue (by simp)
        | ok p =>
          rw [storyNext_page Sprintf self insta story params body p hlive ht hd]
          exact hstory _
    · rw [storyNext_terminal Sprintf self insta story params hlive] at htrue
      exact absurd htrue (by simp)

/-- C18. Back-reference attachment is idempotent: running `setValues` twice on
a `FeedMedia` or a `StoryMedia` gives, for every item and every carousel
descendant, the same owner back-reference, the same `User` and the same flat
wire fields as running it once. -/
theorem setValues_idempotent (self : Nat) (feed : FeedMedia) (story : StoryMedia) :
    (descendantsOf (FeedMedia.setValues self (FeedMedia.setValues self feed)).Items).map
        (fun d => (d.media, d.User, d.flat))
      = (descendantsOf (FeedMedia.setValues self feed).Items).map
        (fun d => (d.media, d.User, d.flat)) ∧
    (descendantsOf (StoryMedia.setValues self (StoryMedia.setValues self story)).Items).map
        (fun d => (d.media, d.User, d.flat))
      = (descendantsOf (StoryMedia.setValues self story).Items).map
        (fun d => (d.media, d.User, d.flat)) := by
  rw [FeedMedia_setValues_again, StoryMedia_setValues_again]
  exact ⟨rfl, rfl⟩

/-- C19. Author propagation: after `setToItem` on an item, with `inst` the
session of the collection, the item and every carousel child at every nesting
depth have `User` equal to the item's own `User` with `inst` as session
handle, whatever `User` the child held before; the item's `User` keeps its
identity fields; and the flat wire fields of the item and of every descendant,
and the number of children of each, are as before. -/
theorem setToItem_author_propagation (item : Item) (media : Media) (inst : Option Nat) :
    (∀ d ∈ (setToItem item media inst).descendants, d.User = { item.User with inst := inst }) ∧
    (setToItem item media inst).User.inst = inst ∧
    (setToItem item media inst).User.ID = item.User.ID ∧
    (setToItem item media inst).User.Username = item.User.Username ∧
    (setToItem item media inst).descendants.map Item.flat = item.descendants.map Item.flat := by
  refine ⟨?_, ?_, ?_, ?_, ?_⟩
  · intro d hd
    exact (setToItemAs_attached media inst item item.User d hd).2.2
  · rw [setToItem_User]
  · rw [setToItem_User]
  · rw [setToItem_User]
  · exact setToItemAs_flat media inst item item.User

/-! ## The endpoint over a run of calls -/

theorem feedNext_step (Sprintf : String → Int → String) (self : Nat) (insta : Instagram)
    (media : FeedMedia) (params : List Dyn) :
    ((FeedMedia.Next Sprintf self insta media params).2.2.calls = insta.calls ∨
      (FeedMedia.Next Sprintf self insta media params).2.2.calls
        = insta.calls ++ [.sendRequest (FeedMedia.request Sprintf insta media params)]) ∧
    (((FeedMedia.Next Sprintf self insta media params).1 = false ∧
        (FeedMedia.Next Sprintf self insta media params).2.1 = media) ∨
      ((FeedMedia.Next Sprintf self insta media params).1 = true ∧
        (FeedMedia.Next Sprintf self insta media params).2.1.uid = 0 ∧
        (FeedMedia.Next Sprintf self insta media params).2.1.endpoint
          = (FeedMedia.request Sprintf insta media params).Endpoint)) := by
  by_cases hlive : media.err = none
  · refine ⟨Or.inr ?_, ?_⟩
    · rw [feedNext_session Sprintf self insta media params hlive]
      rfl
    · cases ht : insta.transport insta.calls
          (.sendRequest (FeedMedia.request Sprintf insta media params)) with
      | error e =>
        rw [feedNext_transport_error Sprintf self insta media params e hlive ht]
        exact Or.inl ⟨rfl, rfl⟩
      | ok body =>
        cases hd : body.feed with
        | error e =>
          rw [feedNext_decode_error Sprintf self insta media params body e hlive ht hd]
          exact Or.inl ⟨rfl, rfl⟩
        | ok p =>
          rw [feedNext_page Sprintf self insta media params body p hlive ht hd]
          exact Or.inr ⟨rfl, rfl, rfl⟩
  · rw [feedNext_terminal Sprintf self insta media params hlive]
    exact ⟨Or.inl rfl, Or.inl ⟨rfl, rfl⟩⟩

theorem feedRun_endpoint (Sprintf : String → Int → String) (self : Nat)
    (paramss : List (List Dyn)) (insta : Instagram) (media : FeedMedia) :
    (∃ news, (FeedMedia.run Sprintf self insta media paramss).2.calls = insta.calls ++ news ∧
      ∀ c ∈ news, ∃ o, c = .sendRequest o ∧
        o.Endpoint
          = (if media.uid ≠ 0 then Sprintf media.endpoint media.uid else media.endpoint)) ∧
    (if (FeedMedia.run Sprintf self insta media paramss).1.uid ≠ 0 then
        Sprintf (FeedMedia.run Sprintf self insta media paramss).1.endpoint
          (FeedMedia.run Sprintf self insta media paramss).1.uid
      else (FeedMedia.run Sprintf self insta media paramss).1.endpoint)
      = (if media.uid ≠ 0 then Sprintf media.endpoint media.uid else media.endpoint) := by
  induction paramss generalizing insta media with
  | nil => exact ⟨⟨[], by simp [FeedMedia.run], by simp⟩, rfl⟩
  | cons params rest ih =>
    simp only [FeedMedia.run]
    obtain ⟨hcalls, hstate⟩ := feedNext_step Sprintf self insta media params
    have hinv : (if (FeedMedia.Next Sprintf self insta media params).2.1.uid ≠ 0 then
          Sprintf (FeedMedia.Next Sprintf self insta media params).2.1.endpoint
            (FeedMedia.Next Sprintf self insta media params).2.1.uid
        else (FeedMedia.Next Sprintf self insta media params).2.1.endpoint)
        = (if media.uid ≠ 0 then Sprintf media.endpoint media.uid else media.endpoint) := by
      rcases hstate with ⟨_, h⟩ | ⟨_, hu, he⟩
      · rw [h]
      · rw [hu, he]
        rfl
    obtain ⟨⟨news, hnews, hall⟩, hfinal⟩ := ih (FeedMedia.Next Sprintf self insta media params).2.2
      (FeedMedia.Next Sprintf self insta media params).2.1
    rw [hinv] at hall hfinal
    refine ⟨?_, hfinal⟩
    rcases hcalls with hc | hc
    · exact ⟨news, by rw [hnews, hc], hall⟩
    · refine ⟨.sendRequest (FeedMedia.request Sprintf insta media params) :: news, ?_, ?_⟩
      · rw [hnews, hc]
        simp
      · intro c hcm
        rcases List.mem_cons.mp hcm with rfl | hcm
        · exact ⟨_, rfl, rfl⟩
        · exact hall c hcm

/-- C20. Endpoint invariance: over every run of `FeedMedia.Next` calls on a
feed with endpoint `e` and owner id `u`, whatever the transport answers and
whatever the arguments, every request the run adds to the session goes to the
same endpoint, `e` formatted with `u` when `u` is non-zero and `e` itself
otherwise; a call that returns true leaves the owner id zero and stores that
endpoint, so the owner id is not formatted into it again. -/
theorem FeedMedia_endpoint_invariance (Sprintf : String → Int → String) (self : Nat)
    (insta : Instagram) (media : FeedMedia) (paramss : List (List Dyn)) :
    (∃ news, (FeedMedia.run Sprintf self insta media paramss).2.calls = insta.calls ++ news ∧
      ∀ c ∈ news, ∃ o, c = .sendRequest o ∧
        o.Endpoint
          = (if media.uid ≠ 0 then Sprintf media.endpoint media.uid else media.endpoint)) ∧
    (∀ params, (FeedMedia.Next Sprintf self insta media params).1 = true →
      (FeedMedia.Next Sprintf self insta media params).2.1.uid = 0 ∧
      (FeedMedia.Next Sprintf self insta media params).2.1.endpoint
        = (if media.uid ≠ 0 then Sprintf media.endpoint media.uid else media.endpoint)) ∧
    (FeedMedia.run decimalSprintf 1 (cursorSession none) userFeed [[], [.bool false], []]).2.calls.map
        (fun c =>
          match c with
          | .sendRequest o => o.Endpoint
          | .sendSimpleRequest uri => uri)
      = ["feed/user/5/", "feed/user/5/", "feed/user/5/"] := by
  refine ⟨(feedRun_endpoint Sprintf self paramss insta media).1, ?_, ?_⟩
  · intro params htrue
    rcases (feedNext_step Sprintf self insta media params).2 with ⟨hf, _⟩ | ⟨_, hu, he⟩
    · rw [hf] at htrue
      exact absurd htrue (by simp)
    · exact ⟨hu, he⟩
  · rfl

/-! ## Exhaustion after a successful advance -/

/-- C21. After a successful `FeedMedia.Next` on a decoded page, `Error()` is
`ErrNoMore` if and only if the page's `more_available` flag is false, and nil
if and only if it is true, whatever the decoded cursor is: the comparison of
the decoded cursor with 0 is false, as it is for every value the decoder
stores into an `interface{}`. -/
theorem FeedMedia_Next_exhaustion_iff (Sprintf : String → Int → String) (self : Nat)
    (insta : Instagram) (media : FeedMedia) (params : List Dyn) (body : Body) (p : FeedPage)
    (hlive : media.err = none)
    (ht : insta.transport insta.calls (.sendRequest (FeedMedia.request Sprintf insta media params))
      = .ok body)
    (hd : body.feed = .ok p) :
    ((FeedMedia.Next Sprintf self insta media params).2.1.Error = some .ErrNoMore ↔
      p.MoreAvailable = false) ∧
    ((FeedMedia.Next Sprintf self insta media params).2.1.Error = none ↔
      p.MoreAvailable = true) ∧
    (FeedMedia.Next Sprintf self insta media params).2.1.NextID.eqInt 0 = false ∧
    (∀ (useNumber : Bool) (j : JSON) (n : Int),
      (unmarshalInterface useNumber j).eqInt n = false) ∧
    Dyn.nil.eqInt 0 = false := by
  rw [feedNext_page Sprintf self insta media params body p hlive ht hd]
  refine ⟨?_, ?_, ?_, unmarshalInterface_eqInt, rfl⟩
  · cases hm : p.MoreAvailable <;>
      simp [FeedMedia.Error, FeedMedia.setValues, FeedMedia.advanced, hm]
  · cases hm : p.MoreAvailable <;>
      simp [FeedMedia.Error, FeedMedia.setValues, FeedMedia.advanced, hm]
  · simp only [FeedMedia.setValues, FeedMedia.advanced]
    cases p.next_max_id with
    | none => rfl
    | some j => exact unmarshalInterface_eqInt true j 0

theorem FeedMedia_Next_exhaustion_iff_witness :
    liveFeed.err = none ∧
    (FeedMedia.Next plainSprintf 1 closingSession liveFeed []).2.1.Error = some .ErrNoMore ∧
    (FeedMedia.Next plainSprintf 1 (cursorSession (some (.num "0"))) liveFeed []).2.1.Error
      = none :=
  ⟨rfl,
    (FeedMedia_Next_exhaustion_iff plainSprintf 1 closingSession liveFeed []
      { feed := .ok { cursorPage (some (.str "QVFE")) with MoreAvailable := false },
        story := .ok trayPage }
      { cursorPage (some (.str "QVFE")) with MoreAvailable := false } rfl rfl rfl).1.mpr rfl,
    (FeedMedia_Next_exhaustion_iff plainSprintf 1 (cursorSession (some (.num "0"))) liveFeed []
      (cursorBody (some (.num "0"))) (cursorPage (some (.num "0"))) rfl rfl rfl).2.1.mpr rfl⟩

/-! ## When GetBest is empty -/

theorem scanBest_strict (cands : List (Int × Int × String)) (best : Int × Int × String) :
    scanBest best cands = best ∨
      (scanBest best cands ∈ cands ∧ (scanBest best cands).2.2 ≠ "" ∧
        best.1 < (scanBest best cands).1 ∧ best.2.1 < (scanBest best cands).2.1) := by
  induction cands generalizing best with
  | nil => exact Or.inl rfl
  | cons c cs ih =>
    simp only [scanBest]
    cases hr : replaces best c with
    | true =>
      simp only [if_true]
      simp only [replaces, Bool.and_eq_true, decide_eq_true_eq] at hr
      right
      rcases ih c with h | ⟨hm, hu, hw, hh⟩
      · rw [h]
        exact ⟨List.mem_cons_self _ _, hr.2, hr.1.1, hr.1.2⟩
      · exact ⟨List.mem_cons_of_mem _ hm, hu, by omega, by omega⟩
    | false =>
      simp only [Bool.false_eq_true, if_false]
      rcases ih best with h | ⟨hm, hu, hw, hh⟩
      · exact Or.inl h
      · exact Or.inr ⟨List.mem_cons_of_mem _ hm, hu, hw, hh⟩

theorem scanBest_empty_iff (cands : List (Int × Int × String)) :
    ((scanBest (0, 0, "") cands).2.2 = "" ↔
      ¬ ∃ c ∈ cands, 0 < c.1 ∧ 0 < c.2.1 ∧ c.2.2 ≠ "") ∧
    ((∃ c ∈ cands, 0 < c.1 ∧ 0 < c.2.1 ∧ c.2.2 ≠ "") →
      scanBest (0, 0, "") cands ∈ cands ∧ 0 < (scanBest (0, 0, "") cands).1 ∧
      0 < (scanBest (0, 0, "") cands).2.1 ∧ (scanBest (0, 0, "") cands).2.2 ≠ "") := by
  have hpos : (∃ c ∈ cands, 0 < c.1 ∧ 0 < c.2.1 ∧ c.2.2 ≠ "") →
      scanBest (0, 0, "") cands ∈ cands ∧ 0 < (scanBest (0, 0, "") cands).1 ∧
      0 < (scanBest (0, 0, "") cands).2.1 ∧ (scanBest (0, 0, "") cands).2.2 ≠ "" := by
    rintro ⟨c, hc, hw, hh, hu⟩
    obtain ⟨hm, hurl, _⟩ := scanBest_undominated cands ⟨c, hc, hu, hw, hh⟩
    rcases scanBest_strict cands (0, 0, "") with h | ⟨_, _, h1, h2⟩
    · rw [h] at hurl
      exact absurd rfl hurl
    · exact ⟨hm, h1, h2, hurl⟩
  refine ⟨⟨?_, ?_⟩, hpos⟩
  · intro hempty hex
    exact (hpos hex).2.2.2 hempty
  · intro hnone
    rcases scanBest_strict cands (0, 0, "") with h | ⟨hm, hu, h1, h2⟩
    · rw [h]
    · exact absurd ⟨_, hm, h1, h2, hu⟩ hnone

/-- C22. `GetBest` returns the empty string if and only if no candidate of the
list has width > 0, height > 0 and a non-empty URL; when some candidate has,
the result is the URL of a candidate of the list with width > 0, height > 0
and a non-empty URL; and for an argument that is neither a `[]Video` nor a
`[]Candidate` the result is the empty string. -/
theorem GetBest_empty_iff (tv : List Video) (tc : List Candidate) (v : Dyn) :
    (GetBest (.Videos tv) = "" ↔ ¬ ∃ c ∈ tv, 0 < c.Width ∧ 0 < c.Height ∧ c.URL ≠ "") ∧
    ((∃ c ∈ tv, 0 < c.Width ∧ 0 < c.Height ∧ c.URL ≠ "") →
      ∃ r ∈ tv, 0 < r.Width ∧ 0 < r.Height ∧ r.URL ≠ "" ∧ GetBest (.Videos tv) = r.URL) ∧
    (GetBest (.Candidates tc) = "" ↔ ¬ ∃ c ∈ tc, 0 < c.Width ∧ 0 < c.Height ∧ c.URL ≠ "") ∧
    ((∃ c ∈ tc, 0 < c.Width ∧ 0 < c.Height ∧ c.URL ≠ "") →
      ∃ r ∈ tc, 0 < r.Width ∧ 0 < r.Height ∧ r.URL ≠ "" ∧ GetBest (.Candidates tc) = r.URL) ∧
    GetBest (.other v) = "" := by
  have hv : (∃ c ∈ tv.map (fun v => (v.Width, v.Height, v.URL)),
      0 < c.1 ∧ 0 < c.2.1 ∧ c.2.2 ≠ "") ↔ ∃ c ∈ tv, 0 < c.Width ∧ 0 < c.Height ∧ c.URL ≠ "" := by
    simp [List.mem_map]
  have hc : (∃ c ∈ tc.map (fun v => (v.Width, v.Height, v.URL)),
      0 < c.1 ∧ 0 < c.2.1 ∧ c.2.2 ≠ "") ↔ ∃ c ∈ tc, 0 < c.Width ∧ 0 < c.Height ∧ c.URL ≠ "" := by
    simp [List.mem_map]
  obtain ⟨hv1, hv2⟩ := scanBest_empty_iff (tv.map (fun v => (v.Width, v.Height, v.URL)))
  obtain ⟨hc1, hc2⟩ := scanBest_empty_iff (tc.map (fun v => (v.Width, v.Height, v.URL)))
  refine ⟨?_, ?_, ?_, ?_, rfl⟩
  · rw [GetBest_videos_scan, hv1, hv]
  · intro hex
    obtain ⟨hm, hw, hh, hu⟩ := hv2 (hv.mpr hex)
    obtain ⟨r, hr, hreq⟩ := List.mem_map.mp hm
    rw [GetBest_videos_scan]
    rw [← hreq] at hw hh hu
    exact ⟨r, hr, hw, hh, hu, by rw [← hreq]⟩
  · rw [GetBest_candidates_scan, hc1, hc]
  · intro hex
    obtain ⟨hm, hw, hh, hu⟩ := hc2 (hc.mpr hex)
    obtain ⟨r, hr, hreq⟩ := List.mem_map.mp hm
    rw [GetBest_candidates_scan]
    rw [← hreq] at hw hh hu
    exact ⟨r, hr, hw, hh, hu, by rw [← hreq]⟩

end Goinsta
